import Mathlib

/-!
# Verification of the AI sales-list enrichment pipeline

Shallow embedding of the core of the `ai-sales-list-enrichment` repository:
the three-phase enrichment pipeline (`src/pipeline/phase_a.py`,
`src/pipeline/phase_b.py`, `src/pipeline/phase_c.py`), the task handler
(`src/handlers/task_handler.py`), the direct batch dispatcher
(`src/handlers/direct_processor.py`), the token-bucket rate limiter
(`src/utils/rate_limiter.py`) and the extraction / validation utilities
(`src/utils/extractors.py`, `src/utils/validators.py`).

Python dictionaries are embedded as structures with `Option`-valued fields
(`none` = key absent); Python truthiness on strings/lists is modelled
explicitly; external providers (Perplexity search / extraction, OpenAI
synthesis, BigQuery store) are oracles passed as `Except Unit α` / `Bool`
parameters; the wall clock is threaded as an opaque `now : String`.
-/

namespace Enrich

set_option maxRecDepth 16000

/-! ## Python string primitives -/

/-- Python whitespace for `\s`, `str.split()` and `str.strip()`
(ASCII whitespace plus the common unicode spaces). -/
def isPySpace (c : Char) : Bool :=
  c = ' ' || c = '\t' || c = '\n' || c = '\r' || c = '\x0b' || c = '\x0c' ||
  c = ' ' || c = '　'

/-- Test that `needle` is a (contiguous) prefix of `hay`. -/
def listStarts : List Char → List Char → Bool
  | [], _ => true
  | _ :: _, [] => false
  | a :: as, b :: bs => a = b && listStarts as bs

/-- Test that `needle` occurs contiguously in `hay` (Python `needle in hay`;
the empty needle always matches). -/
def listOccurs (needle : List Char) : List Char → Bool
  | [] => listStarts needle []
  | b :: bs => listStarts needle (b :: bs) || listOccurs needle bs

/-- Python substring membership `needle in hay`. -/
def strContains (hay needle : String) : Bool :=
  listOccurs needle.toList hay.toList

/-- Python `str.startswith`. -/
def strStartsWith (s pre : String) : Bool := listStarts pre.toList s.toList

/-- Python `str.endswith` for a one-character suffix. -/
def strEndsWith1 (s : String) (c : Char) : Bool :=
  match s.toList.reverse with
  | [] => false
  | a :: _ => a = c

/-- Python `str.split(sep)` for a one-character separator (`""` yields
`[""]`). -/
def splitOnCharAux (sep : Char) (cur : List Char) : List Char → List (List Char)
  | [] => [cur.reverse]
  | c :: rest =>
    if c = sep then cur.reverse :: splitOnCharAux sep [] rest
    else splitOnCharAux sep (c :: cur) rest

/-- Python `str.split(sep)` for a one-character separator. -/
def pySplitOnChar (sep : Char) (s : String) : List String :=
  (splitOnCharAux sep [] s.toList).map String.mk

/-- Split at the first occurrence of a (nonempty) separator, as Python
`str.split(sep, 1)`: `some (before, after)` when the separator occurs. -/
def splitFirst (sep : List Char) : List Char → Option (List Char × List Char)
  | [] => none
  | c :: rest =>
    if listStarts sep (c :: rest) then some ([], (c :: rest).drop sep.length)
    else
      match splitFirst sep rest with
      | some (pre, post) => some (c :: pre, post)
      | none => none

/-- Python `str.lower()` (ASCII case folding; identity on Japanese text,
which is the only non-ASCII text this code lowercases). -/
def asciiLower (s : String) : String :=
  String.mk (s.toList.map Char.toLower)

/-- Python `str.strip()`. -/
def pyStrip (s : String) : String :=
  String.mk (((s.toList.dropWhile isPySpace).reverse.dropWhile isPySpace).reverse)

/-- One pass of `re.sub(r'\s+', ' ', text)`: every maximal whitespace run
becomes a single space.  The boolean records whether the previous character
was part of a whitespace run. -/
def collapseWsAux : Bool → List Char → List Char
  | _, [] => []
  | prevSpace, c :: rest =>
    if isPySpace c then
      if prevSpace then collapseWsAux true rest
      else ' ' :: collapseWsAux true rest
    else c :: collapseWsAux false rest

/-- Embedding of `re.sub(r'\s+', ' ', text)`. -/
def collapseWs (s : String) : String :=
  String.mk (collapseWsAux false s.toList)

/-- Skip to the first `'>'`; `some rest` if a closing `'>'` exists and at
least one character precedes it (the regex `<[^>]+>` needs one). -/
def findTagEnd : Bool → List Char → Option (List Char)
  | _, [] => none
  | sawOne, c :: rest =>
    if c = '>' then (if sawOne then some rest else none)
    else findTagEnd true rest

theorem findTagEnd_length {b : Bool} {cs rest : List Char}
    (h : findTagEnd b cs = some rest) : rest.length ≤ cs.length := by
  induction cs generalizing b rest with
  | nil => simp [findTagEnd] at h
  | cons c cs ih =>
    unfold findTagEnd at h
    split at h
    · split at h
      · cases h; simp
      · cases h
    · have := ih h
      simp only [List.length_cons]
      omega

/-- Embedding of `re.sub(r'<[^>]+>', '', text)`: drop HTML-tag-shaped substrings,
scanning left to right.  The fuel is one more than the input length (each
step consumes at least one character, so the fuel is never exhausted; the
fuel-0 case returns the rest unchanged). -/
def removeTagsFuel : Nat → List Char → List Char
  | 0, cs => cs
  | _ + 1, [] => []
  | fuel + 1, c :: rest =>
    if c = '<' then
      match findTagEnd false rest with
      | some rest' => removeTagsFuel fuel rest'
      | none => c :: removeTagsFuel fuel rest
    else c :: removeTagsFuel fuel rest

/-- Embedding of `re.sub(r'<[^>]+>', '', text)`. -/
def removeTagsAux (cs : List Char) : List Char :=
  removeTagsFuel (cs.length + 1) cs

/-- Control characters removed by `sanitize_text`
(`[\x00-\x08\x0b\x0c\x0e-\x1f\x7f]`). -/
def isCtrlChar (c : Char) : Bool :=
  (c.toNat ≤ 0x08) || c.toNat = 0x0b || c.toNat = 0x0c ||
  (0x0e ≤ c.toNat && c.toNat ≤ 0x1f) || c.toNat = 0x7f

/-- Embedding of `validators.sanitize_text`: drop HTML tags, drop control characters,
collapse whitespace runs to single spaces, strip. -/
def sanitize_text (s : String) : String :=
  pyStrip (collapseWs (String.mk ((removeTagsAux s.toList).filter (fun c => !isCtrlChar c))))

/-- Embedding of `extractors.clean_text`: collapse whitespace runs, then strip.
(The intermediate `re.sub(r'\n+','\n',·)` of the source is the identity
because the first substitution already removed every newline.) -/
def clean_text (s : String) : String :=
  if s = "" then "" else pyStrip (collapseWs s)

/-- First-occurrence deduplication, as `list(dict.fromkeys(l))` and
`list(set(l))` (for the latter the source order is interpreter-defined;
first-occurrence order is the deterministic stand-in). -/
def pyDedupAux (seen : List String) : List String → List String
  | [] => []
  | a :: l => if seen.contains a then pyDedupAux seen l else a :: pyDedupAux (a :: seen) l

/-- Embedding of `list(dict.fromkeys(l))`. -/
def pyDedup (l : List String) : List String := pyDedupAux [] l

/-- Python `str.split()` (split on whitespace runs, no empty pieces). -/
def pySplitAux (cur : List Char) : List Char → List String
  | [] => if cur.isEmpty then [] else [String.mk cur.reverse]
  | c :: rest =>
    if isPySpace c then
      if cur.isEmpty then pySplitAux [] rest
      else String.mk cur.reverse :: pySplitAux [] rest
    else pySplitAux (c :: cur) rest

/-- Python `str.split()`. -/
def pySplit (s : String) : List String := pySplitAux [] s.toList

/-- Truthiness of an optional string field of a Python dict:
`bool(d.get(k))` is `False` for a missing key and for `""`. -/
def truthyS : Option String → Bool
  | none => false
  | some s => s ≠ ""

/-- Embedding of `d.get(k, default)`: the stored value when the key is
present (even if falsy), otherwise the default. -/
def getOr (o : Option String) (d : String) : String :=
  match o with
  | some s => s
  | none => d

/-! ## `src/utils/extractors.py` -/

/-- The 47 prefecture names (`extractors.PREFECTURES`). -/
def PREFECTURES : List String :=
  ["北海道", "青森県", "岩手県", "宮城県", "秋田県", "山形県", "福島県",
   "茨城県", "栃木県", "群馬県", "埼玉県", "千葉県", "東京都", "神奈川県",
   "新潟県", "富山県", "石川県", "福井県", "山梨県", "長野県", "岐阜県",
   "静岡県", "愛知県", "三重県", "滋賀県", "京都府", "大阪府", "兵庫県",
   "奈良県", "和歌山県", "鳥取県", "島根県", "岡山県", "広島県", "山口県",
   "徳島県", "香川県", "愛媛県", "高知県", "福岡県", "佐賀県", "長崎県",
   "熊本県", "大分県", "宮崎県", "鹿児島県", "沖縄県"]

/-- Embedding of `extractors.ENGLISH_PREFECTURES` (insertion order of the dict). -/
def ENGLISH_PREFECTURES : List (String × String) :=
  [("Tokyo", "東京都"), ("Osaka", "大阪府"), ("Kyoto", "京都府"),
   ("Hokkaido", "北海道"), ("Aichi", "愛知県"), ("Kanagawa", "神奈川県"),
   ("Saitama", "埼玉県"), ("Chiba", "千葉県"), ("Hyogo", "兵庫県"),
   ("Fukuoka", "福岡県")]

/-- Embedding of `extractors.extract_prefecture`: first Japanese prefecture name contained
in the address, else the mapped value of the first English key contained. -/
def extract_prefecture (address : String) : Option String :=
  if address = "" then none
  else
    match PREFECTURES.find? (fun p => strContains address p) with
    | some p => some p
    | none =>
      match ENGLISH_PREFECTURES.find? (fun kv => strContains address kv.1) with
      | some kv => some kv.2
      | none => none

/-- Embedding of `extractors.industry_pains` rule table (dict insertion order). -/
def industryPains : List (String × List String) :=
  [("IT・web", ["技術人材不足", "セキュリティ強化", "DX推進", "クラウド移行"]),
   ("製造業界", ["品質管理", "コスト削減", "自動化推進", "サプライチェーン最適化"]),
   ("小売・卸売業界", ["EC化対応", "在庫管理", "顧客満足度向上", "物流効率化"]),
   ("金融業界", ["コンプライアンス強化", "デジタル化", "リスク管理", "顧客体験向上"]),
   ("医療・福祉業界", ["人手不足", "デジタル化", "コスト削減", "サービス品質向上"]),
   ("教育・学習業界", ["オンライン化", "個別最適化", "学習効果向上", "運営効率化"]),
   ("建設・建築", ["人手不足", "安全対策", "工期短縮", "コスト管理"]),
   ("運輸・物流業界", ["ドライバー不足", "燃料費高騰", "配送効率化", "環境対応"]),
   ("飲食業界", ["人手不足", "食材コスト", "衛生管理", "顧客獲得"]),
   ("不動産業界", ["デジタル化", "顧客獲得", "物件管理", "法規制対応"])]

/-- Embedding of `extractors.size_pains` rule table. -/
def sizePains : List (String × List String) :=
  [("small", ["資金調達", "人材確保", "ブランド認知", "業務効率化"]),
   ("medium", ["組織拡大", "システム統合", "品質管理", "競合対策"]),
   ("large", ["イノベーション", "グローバル展開", "コンプライアンス", "持続的成長"])]

/-- Embedding of `extractors.keyword_pains` rule table. -/
def keywordPains : List (String × List String) :=
  [("AI", ["AI活用", "データ活用", "自動化", "競合優位性"]),
   ("DX", ["デジタル化", "業務効率化", "顧客体験向上", "競合対策"]),
   ("環境", ["環境対応", "ESG", "持続可能性", "コスト削減"]),
   ("人材", ["人材確保", "育成", "定着率向上", "働き方改革"]),
   ("コスト", ["コスト削減", "効率化", "収益性向上", "競争力強化"])]

/-- Generic padding pains (`generic_pains` in `generate_pain_hypotheses`). -/
def genericPains : List String :=
  ["業務効率化", "コスト削減", "顧客満足度向上", "競合優位性確保", "成長戦略"]

/-- The `while len(hypotheses) < 3` padding loop of
`generate_pain_hypotheses`: repeatedly append the first generic pain not yet
present.  `none` marks the case where the source loop would not terminate
(no fresh generic pain, or out of modelled iterations); the theorems show it
is never reached. -/
def padPains : Nat → List String → Option (List String)
  | 0, _ => none
  | fuel + 1, hyps =>
    if hyps.length < 3 then
      match genericPains.find? (fun p => !(hyps.contains p)) with
      | some p => padPains fuel (hyps ++ [p])
      | none => none
    else some hyps

/-- The accumulation phase of `generate_pain_hypotheses`: industry pains
(first 2), one size pain when the employee count is truthy (Python
`if employee_count:`), one keyword pain per news keyword (first matching
rule key wins). -/
def buildBasePains (industry : String) (employee_count : Option Int)
    (news_keywords : List String) : List String :=
  let base :=
    match industryPains.find? (fun kv => kv.1 = industry) with
    | some kv => kv.2.take 2
    | none => []
  let base :=
    match employee_count with
    | some n =>
      if n ≠ 0 then
        let cat := if n < 50 then "small" else if n < 500 then "medium" else "large"
        match sizePains.find? (fun kv => kv.1 = cat) with
        | some kv => base ++ kv.2.take 1
        | none => base
      else base
    | none => base
  base ++ news_keywords.flatMap (fun kw =>
    match keywordPains.find? (fun kv => strContains kw kv.1) with
    | some kv => kv.2.take 1
    | none => [])

/-- Embedding of `extractors.generate_pain_hypotheses`: accumulate the rule-table pains,
dedup keeping first occurrences, cap at 5, pad to at least 3 with generic
pains, final cap at 5. -/
def generate_pain_hypotheses (industry : String) (employee_count : Option Int)
    (news_keywords : List String) : Option (List String) :=
  match padPains 4 ((pyDedup (buildBasePains industry employee_count news_keywords)).take 5) with
  | some padded => some (padded.take 5)
  | none => none

/-- Embedding of `extractors.generate_personalization_notes`. -/
def generate_personalization_notes (name prefecture industry top_service top_pain : String) :
    String :=
  let notes :=
    (if prefecture ≠ "" then
      [name ++ "（" ++ prefecture ++ "）は" ++ industry ++ "領域で「" ++ top_service ++ "」に注力"]
    else
      [name ++ "は" ++ industry ++ "領域で「" ++ top_service ++ "」に注力"])
  let notes := notes ++ (if top_pain ≠ "" then ["直近トピックから、" ++ top_pain ++ "の検討余地"] else [])
  let notes := notes ++ ["初回は" ++ industry ++ "向けに具体的なソリューション提案を検討"]
  String.intercalate "。" notes ++ "。"

/-- Embedding of `extractors.extract_domain`: strip the protocol, the path and the port,
lowercase. -/
def extract_domain (url : String) : String :=
  if url = "" then ""
  else
    let url := if strContains url "://" then
        match splitFirst "://".toList url.toList with
        | some (_, post) => String.mk post
        | none => url
      else url
    let url := if strContains url "/" then
        String.mk (url.toList.takeWhile (fun c => c ≠ '/'))
      else url
    let url := if strContains url ":" then
        String.mk (url.toList.takeWhile (fun c => c ≠ ':'))
      else url
    asciiLower url

/-- Embedding of `extractors.extract_apex_domain`: keep the last two dot-separated parts. -/
def extract_apex_domain (domain : String) : String :=
  if domain = "" then ""
  else
    let parts := pySplitOnChar '.' domain
    if parts.length ≥ 2 then
      String.intercalate "." (parts.drop (parts.length - 2))
    else domain

/-! ### `extract_employee_count` and its regex patterns

The five patterns of `extractors.EMPLOYEE_PATTERNS` all have the shape
`marker` (`s?` for the English one) `\s*[:：]?\s*([\d,，\.]+)` with a
trailing `\s*名?` on the first.  They are modelled by a character-level
scanner with Python `re.findall` semantics (left-to-right, non-overlapping;
`re.IGNORECASE` is passed for every pattern and only affects ASCII). -/

/-- ASCII digit. -/
def isAsciiDigit (c : Char) : Bool := '0' ≤ c && c ≤ '9'

/-- Full-width digit `０`-`９` (matched by Python `\d` and accepted by
`int`). -/
def isFullwidthDigit (c : Char) : Bool := '０' ≤ c && c ≤ '９'

/-- Character class `[\d,，\.]` of the employee-count group. -/
def isCountChar (c : Char) : Bool :=
  isAsciiDigit c || isFullwidthDigit c || c = ',' || c = '，' || c = '.'

/-- One employee-count pattern: its marker, whether an optional trailing
`s` follows the marker (`Employees?`), and whether `\s*名?` trails the
group (first pattern only). -/
structure EmpPattern where
  marker : String
  optS : Bool
  trailingMei : Bool
  deriving Repr, DecidableEq

/-- Embedding of `extractors.EMPLOYEE_PATTERNS`, in source order. -/
def EMPLOYEE_PATTERNS : List EmpPattern :=
  [⟨"従業員数", false, true⟩,
   ⟨"Employee", true, false⟩,
   ⟨"社員数", false, false⟩,
   ⟨"スタッフ数", false, false⟩,
   ⟨"従業者数", false, false⟩]

/-- Case-insensitive character comparison (`re.IGNORECASE`, ASCII). -/
def ciEq (a b : Char) : Bool := a.toLower = b.toLower

/-- Match the marker (case-insensitively) at the head of the input,
returning the rest. -/
def matchMarker : List Char → List Char → Option (List Char)
  | [], cs => some cs
  | _ :: _, [] => none
  | m :: ms, c :: cs => if ciEq m c then matchMarker ms cs else none

/-- Maximal run of `[\d,，\.]` characters. -/
def takeCountRun : List Char → List Char × List Char
  | [] => ([], [])
  | c :: cs =>
    if isCountChar c then
      let (run, rest) := takeCountRun cs
      (c :: run, rest)
    else ([], c :: cs)

/-- Try to match one employee-count pattern at the head of the input;
on success return the captured digit group and the input following the
whole match. -/
def matchPatAt (p : EmpPattern) (cs : List Char) : Option (String × List Char) :=
  match matchMarker p.marker.toList cs with
  | none => none
  | some cs =>
    let cs := if p.optS then
        match cs with
        | c :: rest => if ciEq c 's' then rest else c :: rest
        | [] => []
      else cs
    let cs := cs.dropWhile isPySpace
    let cs := match cs with
      | c :: rest => if c = ':' || c = '：' then rest else c :: rest
      | [] => []
    let cs := cs.dropWhile isPySpace
    match takeCountRun cs with
    | ([], _) => none
    | (run, rest) =>
      let rest := if p.trailingMei then
          let r := rest.dropWhile isPySpace
          match r with
          | c :: r' => if c = '名' then r' else c :: r'
          | [] => []
        else rest
      some (String.mk run, rest)

/-- Embedding of `re.findall` for one employee-count pattern: scan left to right, on a
match capture the group and continue after the match, otherwise advance one
character.  The fuel is the remaining input length (a match always consumes
at least the marker, so the fuel suffices). -/
def findAllPat (p : EmpPattern) : Nat → List Char → List String
  | 0, _ => []
  | _ + 1, [] => []
  | fuel + 1, cs =>
    match matchPatAt p cs with
    | some (g, rest) => g :: findAllPat p fuel rest
    | none => findAllPat p fuel cs.tail

/-- All groups matched by a pattern in a text. -/
def patGroups (p : EmpPattern) (text : String) : List String :=
  findAllPat p (text.toList.length + 1) text.toList

/-- Numeric value of a digit character (ASCII or full-width). -/
def countDigitVal (c : Char) : Nat :=
  if isAsciiDigit c then c.toNat - '0'.toNat
  else if isFullwidthDigit c then c.toNat - '０'.toNat
  else 0

/-- Python `int(match.replace(',','').replace('，','').replace('.',''))`:
strip the separators; `none` models the `ValueError` on an empty or
non-digit remainder. -/
def parseCount (s : String) : Option Nat :=
  let t := s.toList.filter (fun c => !(c = ',' || c = '，' || c = '.'))
  if t = [] then none
  else if t.all (fun c => isAsciiDigit c || isFullwidthDigit c) then
    some (t.foldl (fun acc c => acc * 10 + countDigitVal c) 0)
  else none

/-- Embedding of `max_count` of `extract_employee_count` for one pattern:
the maximum parsed value over the pattern's groups (unparseable groups
skipped, starting from 0). -/
def patternMax (p : EmpPattern) (text : String) : Nat :=
  (patGroups p text).foldl (fun acc g =>
    match parseCount g with
    | some v => max acc v
    | none => acc) 0

/-- The pattern loop of `extract_employee_count`: first pattern whose
matches yield a positive maximum wins. -/
def extractEmployeeGo (text : String) : List EmpPattern → Option (Nat × String)
  | [] => none
  | p :: ps =>
    if (patGroups p text) ≠ [] then
      if 0 < patternMax p text then some (patternMax p text, text)
      else extractEmployeeGo text ps
    else extractEmployeeGo text ps

/-- Embedding of `extractors.extract_employee_count`. -/
def extract_employee_count (text : String) : Option (Nat × String) :=
  if text = "" then none
  else extractEmployeeGo text EMPLOYEE_PATTERNS

/-! ## Data model

Python dicts with a known key set are embedded as structures whose fields
are `Option`-valued (`none` = key absent). -/

/-- One Perplexity search result (`{url, title, snippet}`; the snippet is
unused by Phase A). -/
structure SearchResult where
  url : String
  title : String
  deriving Repr, DecidableEq

/-- Phase A output (`urls` dict of `phase_a_search`). -/
structure CandidateURLSet where
  about_pages : List String := []
  business_pages : List String := []
  product_pages : List String := []
  news_pages : List String := []
  legal_pages : List String := []
  deriving Repr, DecidableEq

/-- Phase B `extracted_data` payload, with the fields read by
`PhaseC._prepare_input_data` / `_process_address_info` /
`_post_process_data`. -/
structure ExtractedData where
  address_lines : List String := []
  employee_mentions : List String := []
  service_heads : List String := []
  product_heads : List String := []
  news_headlines : List String := []
  business_details : List String := []
  company_features : List String := []
  tech_stack : List String := []
  company_description : String := ""
  deriving Repr, DecidableEq

/-- One entry of a record's `recent_news` list. -/
structure NewsItem where
  title : Option String := none
  deriving Repr, DecidableEq

/-- The `signals` diagnostic payload written by Phase C / the error
handler. -/
structure Signals where
  phase_a_urls_found : Nat := 0
  phase_b_elements_found : Nat := 0
  error : Option String := none
  processing_timestamp : Option String := none
  deriving Repr, DecidableEq

/-- A company/enriched-record dict: the union of the keys read or written
by the pipeline, the validators and the task handler. -/
structure Rec where
  website : Option String := none
  name : Option String := none
  name_legal : Option String := none
  industry : Option String := none
  hq_address_raw : Option String := none
  prefecture_name : Option String := none
  prefecture : Option String := none
  overview_text : Option String := none
  services_text : Option String := none
  products_text : Option String := none
  pain_hypotheses : Option (List String) := none
  personalization_notes : Option String := none
  employee_count : Option Int := none
  employee_count_source_url : Option String := none
  recent_news : List NewsItem := []
  services : List String := []
  status : Option String := none
  validation_errors : List String := []
  signals : Option Signals := none
  last_crawled_at : Option String := none
  deriving Repr, DecidableEq

/-- The company input dispatched to the pipeline (`website`, `name`,
`industry`, `prefecture` keys of the task payload). -/
structure Company where
  website : Option String := none
  name : Option String := none
  industry : Option String := none
  prefecture : Option String := none
  deriving Repr, DecidableEq

/-! ## `src/utils/validators.py` -/

/-- Valid characters of a URL scheme for `urllib.parse.urlparse`. -/
def isSchemeChar (c : Char) : Bool :=
  c.isAlphanum || c = '+' || c = '-' || c = '.'

/-- Embedding of `urllib.parse.urlparse` restricted to the `(scheme, netloc)` pair that
`validate_website` inspects: a `scheme://netloc/...` URL yields the
lowercased scheme and the authority up to the next `/`, `?` or `#`;
anything else yields empty components (which `validate_website` rejects). -/
def urlparseSchemeNetloc (url : String) : String × String :=
  match splitFirst "://".toList url.toList with
  | some (first, after) =>
    if first ≠ [] ∧ first.all isSchemeChar ∧ (first.head?.map Char.isAlpha).getD false then
      let netloc := after.takeWhile (fun c => ¬ (c = '/' ∨ c = '?' ∨ c = '#'))
      (asciiLower (String.mk first), String.mk netloc)
    else ("", "")
  | none => ("", "")

/-- Embedding of `validators.validate_website`. -/
def validate_website (url : String) : Bool :=
  if url = "" then false
  else
    let (scheme, netloc) := urlparseSchemeNetloc url
    if scheme = "" ∨ netloc = "" then false
    else if ¬ (scheme = "http" ∨ scheme = "https") then false
    else if netloc = "" ∨ ¬ strContains netloc "." then false
    else true

/-- Embedding of `validators.validate_company_name`. -/
def validate_company_name (name : String) : Bool :=
  if name = "" then false
  else if pyStrip name = "" then false
  else if name.length > 200 then false
  else if ['<', '>', '"', '\'', '&', '\n', '\r', '\t'].any
      (fun c => strContains name (String.mk [c])) then false
  else true

/-- Embedding of `validators.validate_industry`. -/
def validate_industry (industry : String) : Bool :=
  if industry = "" then false
  else if pyStrip industry = "" then false
  else if industry.length > 100 then false
  else true

/-- Embedding of `validators.validate_prefecture`. -/
def validate_prefecture (prefecture : String) : Bool :=
  if prefecture = "" then false
  else PREFECTURES.contains prefecture

/-- Embedding of `validators.validate_employee_count` (on an integer value; `None` is
allowed and handled at the call site). -/
def validate_employee_count (count : Int) : Bool :=
  if count < 0 then false
  else if count > 100000000 then false
  else true

/-- Embedding of `validators.validate_overview_text` (300-500 characters). -/
def validate_overview_text (text : String) : Bool :=
  if text = "" then false
  else if text.length < 300 ∨ text.length > 500 then false
  else if pyStrip text = "" then false
  else true

/-- Embedding of `validators.validate_services_text` (empty allowed, ≤1000 chars). -/
def validate_services_text (text : String) : Bool :=
  if text = "" then true
  else if text.length > 1000 then false
  else true

/-- Embedding of `validators.validate_products_text`. -/
def validate_products_text (text : String) : Bool :=
  if text = "" then true
  else if text.length > 1000 then false
  else true

/-- Embedding of `validators.validate_pain_hypotheses` (3-5 nonblank strings of ≤120
characters). -/
def validate_pain_hypotheses (hypotheses : List String) : Bool :=
  if hypotheses.length < 3 ∨ hypotheses.length > 5 then false
  else hypotheses.all (fun h => pyStrip h ≠ "" && h.length ≤ 120)

/-- Embedding of `validators.validate_personalization_notes`. -/
def validate_personalization_notes (notes : String) : Bool :=
  if notes = "" then true
  else if notes.length > 500 then false
  else true

/-- The error list accumulated by `validators.validate_company_data`, in
source order; required fields are validated on `get(k, '')`, optional
fields only when the key is present. -/
def validateErrors (r : Rec) : List String :=
  (if ¬ validate_website (getOr r.website "") then ["Invalid website URL"] else []) ++
    (if ¬ validate_company_name (getOr r.name "") then ["Invalid company name"] else []) ++
    (if ¬ validate_industry (getOr r.industry "") then ["Invalid industry"] else []) ++
    (match r.prefecture with
     | some p => if ¬ validate_prefecture p then ["Invalid prefecture"] else []
     | none => []) ++
    (match r.employee_count with
     | some n => if ¬ validate_employee_count n then ["Invalid employee count"] else []
     | none => []) ++
    (match r.overview_text with
     | some t => if ¬ validate_overview_text t then ["Invalid overview text"] else []
     | none => []) ++
    (match r.services_text with
     | some t => if ¬ validate_services_text t then ["Invalid services text"] else []
     | none => []) ++
    (match r.products_text with
     | some t => if ¬ validate_products_text t then ["Invalid products text"] else []
     | none => []) ++
    (match r.pain_hypotheses with
     | some l => if ¬ validate_pain_hypotheses l then ["Invalid pain hypotheses"] else []
     | none => []) ++
  (match r.personalization_notes with
   | some t => if ¬ validate_personalization_notes t then ["Invalid personalization notes"] else []
   | none => [])

/-- Embedding of `validators.validate_company_data`: `(is_valid, errors)`. -/
def validate_company_data (r : Rec) : Bool × List String :=
  ((validateErrors r).length = 0, validateErrors r)

/-- Embedding of `validators.normalize_url`: ensure an `http(s)://` prefix, drop one
trailing slash, lowercase. -/
def normalize_url (url : String) : String :=
  if url = "" then ""
  else
    let url := if ¬ (strStartsWith url "http://" ∨ strStartsWith url "https://")
      then "https://" ++ url else url
    let url := if strEndsWith1 url '/' then url.dropRight 1 else url
    asciiLower url

/-- Sanitize an optional text field only when present and truthy
(`if field in normalized and normalized[field]`). -/
def sanOpt (o : Option String) : Option String :=
  match o with
  | some s => if s ≠ "" then some (sanitize_text s) else o
  | none => none

/-- Embedding of `validators.normalize_company_data`: sanitize the text fields,
normalize the website URL, keep the integer employee count, sanitize and
filter the pain hypotheses. -/
def normalize_company_data (r : Rec) : Rec :=
  { r with
    name := sanOpt r.name
    name_legal := sanOpt r.name_legal
    industry := sanOpt r.industry
    hq_address_raw := sanOpt r.hq_address_raw
    prefecture_name := sanOpt r.prefecture_name
    overview_text := sanOpt r.overview_text
    services_text := sanOpt r.services_text
    products_text := sanOpt r.products_text
    personalization_notes := sanOpt r.personalization_notes
    website := (match r.website with
      | some s => if s ≠ "" then some (normalize_url s) else r.website
      | none => none)
    pain_hypotheses := (match r.pain_hypotheses with
      | some l =>
        if l ≠ [] then
          some ((l.filter (fun h => h ≠ "" && sanitize_text h ≠ "")).map sanitize_text)
        else r.pain_hypotheses
      | none => none) }

/-! ## Effects

Rate-limiter acquisitions, provider calls and store writes performed by a
run.  Each `acquire` of the token-bucket limiter consumes exactly one token
(see the `RateLimiter` section), so token consumption is tracked as
acquisition counts. -/

/-- Observable side effects of (part of) a company run. -/
structure Effects where
  globalAcquires : Nat := 0
  domainAcquires : Nat := 0
  searchCalls : Nat := 0
  extractCalls : Nat := 0
  synthCalls : Nat := 0
  phaseA : Bool := false
  phaseB : Bool := false
  phaseC : Bool := false
  storeWrites : List Rec := []
  deriving Repr, DecidableEq

/-- Sequential composition of effects. -/
def Effects.add (e₁ e₂ : Effects) : Effects :=
  { globalAcquires := e₁.globalAcquires + e₂.globalAcquires
    domainAcquires := e₁.domainAcquires + e₂.domainAcquires
    searchCalls := e₁.searchCalls + e₂.searchCalls
    extractCalls := e₁.extractCalls + e₂.extractCalls
    synthCalls := e₁.synthCalls + e₂.synthCalls
    phaseA := e₁.phaseA || e₂.phaseA
    phaseB := e₁.phaseB || e₂.phaseB
    phaseC := e₁.phaseC || e₂.phaseC
    storeWrites := e₁.storeWrites ++ e₂.storeWrites }

/-! ## `src/pipeline/phase_a.py` -/

/-- Keyword tables of the Phase A categorizer, in source order. -/
def aboutKeywords : List String := ["about", "company", "会社概要", "会社情報"]

/-- Business-page keywords. -/
def businessKeywords : List String := ["business", "service", "事業", "サービス"]

/-- Product-page keywords. -/
def productKeywords : List String := ["product", "製品", "プロダクト"]

/-- News-page keywords. -/
def newsPageKeywords : List String := ["news", "press", "ir", "ニュース", "プレス"]

/-- Legal-page keywords. -/
def legalKeywords : List String := ["legal", "特定商取引", "privacy", "terms"]

/-- The five URL categories of a `CandidateURLSet`. -/
inductive PageCat
  | about | business | product | news | legal
  deriving Repr, DecidableEq

/-- Embedding of the Phase A keyword test
(any keyword contained in the lowercased URL or title). -/
def anyKw (kws : List String) (urlLower titleLower : String) : Bool :=
  kws.any (fun k => strContains urlLower k || strContains titleLower k)

/-- The if/elif categorisation of one search result: first matching
category wins, unmatched results default to `about`. -/
def categorize (r : SearchResult) : PageCat :=
  let u := asciiLower r.url
  let t := asciiLower r.title
  if anyKw aboutKeywords u t then .about
  else if anyKw businessKeywords u t then .business
  else if anyKw productKeywords u t then .product
  else if anyKw newsPageKeywords u t then .news
  else if anyKw legalKeywords u t then .legal
  else .about

/-- Append one categorised result to the accumulating URL set. -/
def appendResult (acc : CandidateURLSet) (r : SearchResult) : CandidateURLSet :=
  match categorize r with
  | .about => { acc with about_pages := acc.about_pages ++ [r.url] }
  | .business => { acc with business_pages := acc.business_pages ++ [r.url] }
  | .product => { acc with product_pages := acc.product_pages ++ [r.url] }
  | .news => { acc with news_pages := acc.news_pages ++ [r.url] }
  | .legal => { acc with legal_pages := acc.legal_pages ++ [r.url] }

/-- Categorise all results, then cap each category at its top 5 URLs. -/
def categorizeResults (results : List SearchResult) : CandidateURLSet :=
  let u := results.foldl appendResult {}
  { about_pages := u.about_pages.take 5
    business_pages := u.business_pages.take 5
    product_pages := u.product_pages.take 5
    news_pages := u.news_pages.take 5
    legal_pages := u.legal_pages.take 5 }

/-- Embedding of `phase_a_search`: one rate-limited search call (global + domain token
each consumed before the call, also when the provider then raises); on a
provider error the categoriser is skipped and every category is empty. -/
def phase_a_search (searchO : Except Unit (List SearchResult)) :
    CandidateURLSet × Effects :=
  let eff : Effects :=
    { globalAcquires := 1, domainAcquires := 1, searchCalls := 1, phaseA := true }
  match searchO with
  | .error _ => ({}, eff)
  | .ok results => (categorizeResults results, eff)

/-! ## `src/pipeline/phase_b.py` -/

/-- The unioned URL list of a candidate set, in the dict iteration order of
`candidate_urls.values()`. -/
def allUrls (c : CandidateURLSet) : List String :=
  c.about_pages ++ c.business_pages ++ c.product_pages ++ c.news_pages ++ c.legal_pages

/-- Embedding of `phase_b_extract`: an empty URL union short-circuits to the empty dict
`{}` (modelled as `none`) without any rate-limit acquisition or provider
call; otherwise one rate-limited extraction call, whose failure is also
mapped to `{}`.  `some d` models `{"status": "success", "extracted_data": d}`. -/
def phase_b_extract (candidateUrls : CandidateURLSet)
    (extractO : Except Unit ExtractedData) : Option ExtractedData × Effects :=
  if allUrls candidateUrls = [] then
    (none, { phaseB := true })
  else
    let eff : Effects :=
      { globalAcquires := 1, domainAcquires := 1, extractCalls := 1, phaseB := true }
    match extractO with
    | .error _ => (none, eff)
    | .ok d => (some d, eff)

/-- Reading of the Phase B payload as done by Phase C
(an absent payload yields the empty data). -/
def getExtracted (pb : Option ExtractedData) : ExtractedData :=
  match pb with
  | some d => d
  | none => {}

/-! ## `src/pipeline/phase_c.py` -/

/-- Embedding of `PhaseC._prepare_input_data`: project the Phase B payload onto the
fixed schema sent to the synthesis provider (`extracted_data.get(f, [])`
for each field). -/
def prepareInputData (pb : Option ExtractedData) : ExtractedData :=
  let ed := getExtracted pb
  { address_lines := ed.address_lines
    employee_mentions := ed.employee_mentions
    service_heads := ed.service_heads
    product_heads := ed.product_heads
    news_headlines := ed.news_headlines
    business_details := ed.business_details
    company_features := ed.company_features
    tech_stack := ed.tech_stack
    company_description := ed.company_description }

/-- Embedding of `_process_address_info`, first block: join and strip the Phase B
address lines; when nonempty they become `hq_address_raw` and the
prefecture is extracted from them. -/
def addrStep1 (r : Rec) (pb : Option ExtractedData) : Rec :=
  let addressLines := (getExtracted pb).address_lines
  if addressLines ≠ [] then
    let full := pyStrip (String.intercalate " " addressLines)
    if full ≠ "" then
      let r := { r with hq_address_raw := some full }
      match extract_prefecture full with
      | some p => { r with prefecture_name := some p }
      | none => r
    else r
  else r

/-- Embedding of `_process_address_info`, second block: fall back to the company's
input prefecture when it is truthy. -/
def addrStep2 (r : Rec) (c : Company) : Rec :=
  if ¬ truthyS r.prefecture_name ∧ truthyS c.prefecture then
    { r with prefecture_name := c.prefecture }
  else r

/-- Embedding of `_process_address_info`, third block: company-name keyword
heuristics. -/
def addrStep3 (r : Rec) (c : Company) : Rec :=
  if ¬ truthyS r.prefecture_name then
    let name := getOr r.name (getOr c.name "")
    if strContains name "近畿" || strContains name "関西" then
      { r with prefecture_name := some "大阪府" }
    else if strContains name "東京" then { r with prefecture_name := some "東京都" }
    else if strContains name "名古屋" || strContains name "愛知" then
      { r with prefecture_name := some "愛知県" }
    else if strContains name "福岡" then { r with prefecture_name := some "福岡県" }
    else if strContains name "札幌" || strContains name "北海道" then
      { r with prefecture_name := some "北海道" }
    else r
  else r

/-- Embedding of `_process_address_info`, fourth block: generate a basic address from
the prefecture. -/
def addrStep4 (r : Rec) : Rec :=
  if ¬ truthyS r.hq_address_raw ∧ truthyS r.prefecture_name then
    { r with hq_address_raw := some (getOr r.prefecture_name "" ++ "（詳細住所は要確認）") }
  else r

/-- Embedding of `_process_address_info`, fifth block: final address fallback from the
company name and prefecture. -/
def addrStep5 (r : Rec) (c : Company) : Rec :=
  if ¬ truthyS r.hq_address_raw then
    let name := getOr r.name (getOr c.name "企業")
    let pref := getOr r.prefecture_name (getOr c.prefecture "")
    if pref ≠ "" then
      { r with hq_address_raw := some (pref ++ "（" ++ name ++ "の本社所在地）") }
    else
      { r with hq_address_raw := some (name ++ "の本社所在地（要確認）") }
  else r

/-- Embedding of `_process_address_info`, sixth block: default prefecture from website
keywords, else the hard default `東京都`. -/
def addrStep6 (r : Rec) (c : Company) : Rec :=
  if ¬ truthyS r.prefecture_name then
    let website := asciiLower (getOr r.website (getOr c.website ""))
    if strContains website "tokyo" || strContains website "shibuya" then
      { r with prefecture_name := some "東京都" }
    else if strContains website "osaka" then { r with prefecture_name := some "大阪府" }
    else if strContains website "nagoya" || strContains website "aichi" then
      { r with prefecture_name := some "愛知県" }
    else { r with prefecture_name := some "東京都" }
  else r

/-- Embedding of `PhaseC._process_address_info`: the six fallback blocks in source
order. -/
def processAddressInfo (r : Rec) (c : Company) (pb : Option ExtractedData) : Rec :=
  addrStep6 (addrStep5 (addrStep4 (addrStep3 (addrStep2 (addrStep1 r pb) c) c)) c) c

/-- Embedding of `PhaseC._extract_news_keywords`: words of length >2 of the news titles,
deduplicated (the source's `list(set(...))`), capped at 10. -/
def extractNewsKeywords (recent_news : List NewsItem) : List String :=
  let keywords := recent_news.flatMap (fun n =>
    match n.title with
    | some t => if t ≠ "" then (pySplit t).filter (fun w => w.length > 2) else []
    | none => [])
  (pyDedup keywords).take 10

/-- Embedding of `PhaseC._get_top_service`. -/
def getTopService (services : List String) : String :=
  match services with
  | [] => "サービス提供"
  | s :: _ => s

/-- Embedding of `PhaseC._get_top_pain`. -/
def getTopPain (pains : List String) : String :=
  match pains with
  | [] => "業務効率化"
  | p :: _ => p

/-- Clean an optional text field only when present and truthy. -/
def cleanOpt (o : Option String) : Option String :=
  match o with
  | some s => if s ≠ "" then some (clean_text s) else o
  | none => none

/-- Fixed pieces of the `_expand_overview_text` f-string template, in
order: `{current_text}` P1 `{name}` P2 `{industry}` P3 `{website}` P4. -/
def expandTmplP1 : String := "\n\n"

/-- Piece between `{name}` and `{industry}`. -/
def expandTmplP2 : String := "は、"

/-- Piece between `{industry}` and `{website}` (three paragraphs). -/
def expandTmplP3 : String := "分野における専門的なサービス提供を行っており、豊富な経験とノウハウを活用して顧客の課題解決に取り組んでいます。同社は、業界の特性を深く理解し、顧客のニーズに応じた最適なソリューションを提供することで、中小企業から大企業まで多様なクライアントから信頼を得ています。\n\n事業運営では、品質の向上と顧客満足度の最大化を重視し、継続的な改善とイノベーションを通じて市場での競争優位性を確保しています。また、長期的なパートナーシップの構築を目指し、顧客の成長と成功に貢献することを使命としています。\n\n詳細な事業内容や実績については、公式ウェブサイト（"

/-- Closing piece after `{website}`. -/
def expandTmplP4 : String := "）をご確認ください。"

/-- Embedding of `PhaseC._expand_overview_text`: texts of 300+ characters are returned
unchanged, shorter ones get the fixed template (filled with the company
name, industry and website) appended. -/
def expandOverviewText (current_text : String) (c : Company) : String :=
  let name := getOr c.name "企業"
  let industry := getOr c.industry "業界"
  let website := getOr c.website ""
  if 300 ≤ current_text.length then current_text
  else
    current_text ++ expandTmplP1 ++ name ++ expandTmplP2 ++ industry ++
      expandTmplP3 ++ website ++ expandTmplP4

/-- Fixed pieces of the `_get_fallback_result` overview f-string:
`{name}` G1 `{industry}` G2 `{website}` G3 `{name}` P2 `{industry}` P3
`{website}` P4 (sharing the expansion template's last three pieces). -/
def fallbackTmplG1 : String := "は"

/-- Piece between `{industry}` and `{website}` of the first sentence. -/
def fallbackTmplG2 : String := "業界で事業を展開する企業です。ウェブサイトは"

/-- Piece between the first sentence and the repeated template (the blank
line keeps the source's 12-space indentation). -/
def fallbackTmplG3 : String := "です。\n            \n"

/-- Embedding of `PhaseC._get_fallback_result`: the fully templated record returned when
the synthesis step throws; its `status` is the literal `"error"` and its
`prefecture_name` is the raw company prefecture (possibly empty). -/
def getFallbackResult (c : Company) (now : String) : Rec :=
  let name := getOr c.name ""
  let industry := getOr c.industry ""
  let website := getOr c.website ""
  { website := some website
    name := some name
    name_legal := some ""
    industry := some industry
    hq_address_raw := some (if truthyS c.prefecture then
        getOr c.prefecture "" ++ "（" ++ name ++ "の本社所在地）"
      else name ++ "の本社所在地（要確認）")
    prefecture_name := some (getOr c.prefecture "")
    overview_text := some (name ++ fallbackTmplG1 ++ industry ++ fallbackTmplG2 ++
      website ++ fallbackTmplG3 ++ name ++ expandTmplP2 ++ industry ++ expandTmplP3 ++
      website ++ expandTmplP4)
    services_text := some ""
    products_text := some ""
    pain_hypotheses := some
      [industry ++ "業界における業務効率化の課題",
       name ++ "の成長戦略に関する検討",
       industry ++ "市場での競合優位性の確保"]
    personalization_notes := some (name ++ "へのアプローチを検討してください。")
    employee_count := none
    employee_count_source_url := some ""
    status := some "error"
    signals := some { error := some "Phase C processing failed",
                      processing_timestamp := some now } }

/-- Embedding of `_post_process_data`, pain block: regenerate the pain hypotheses when
the field is missing, empty or has fewer than 3 entries.  `none` marks the
would-be non-termination of the padding loop (proved unreachable). -/
def painsRepair (nd : Rec) : Option Rec :=
  let painsNeeded :=
    match nd.pain_hypotheses with
    | none => true
    | some l => l.length < 3
  if painsNeeded then
    match generate_pain_hypotheses (getOr nd.industry "") nd.employee_count
        (extractNewsKeywords nd.recent_news) with
    | some ph => some { nd with pain_hypotheses := some ph }
    | none => none
  else some nd

/-- Embedding of `_post_process_data`, personalization block. -/
def personalizationStep (nd : Rec) : Rec :=
  if ¬ truthyS nd.personalization_notes then
    { nd with personalization_notes := some (generate_personalization_notes
        (getOr nd.name "") (getOr nd.prefecture_name "") (getOr nd.industry "")
        (getTopService nd.services) (getTopPain (nd.pain_hypotheses.getD []))) }
  else nd

/-- Embedding of `_post_process_data`, text-cleaning block. -/
def cleanTextFields (nd : Rec) : Rec :=
  { nd with
    overview_text := cleanOpt nd.overview_text
    services_text := cleanOpt nd.services_text
    products_text := cleanOpt nd.products_text
    personalization_notes := cleanOpt nd.personalization_notes }

/-- Embedding of `_post_process_data`, metadata block: `status = "ok"` plus the signals
payload. -/
def attachMetadata (nd : Rec) (pa : CandidateURLSet) (pb : Option ExtractedData)
    (now : String) : Rec :=
  let ed := getExtracted pb
  { nd with
    status := some "ok"
    signals := some
      { phase_a_urls_found := (allUrls pa).length
        phase_b_elements_found := ed.address_lines.length + ed.employee_mentions.length +
          ed.service_heads.length + ed.product_heads.length
        processing_timestamp := some now } }

/-- Embedding of `PhaseC._post_process_data`: normalize, process the address, repair the
pain hypotheses (rule table, dedup, 3-5), generate personalization notes,
clean the text fields and attach status/signals metadata. -/
def postProcessData (formatted : Rec) (c : Company) (pa : CandidateURLSet)
    (pb : Option ExtractedData) (now : String) : Option Rec :=
  let nd := normalize_company_data formatted
  let nd := processAddressInfo nd c pb
  match painsRepair nd with
  | none => none
  | some nd => some (attachMetadata (cleanTextFields (personalizationStep nd)) pa pb now)

/-- Repair block of `format_and_synthesize`, overview part: expand a
too-short overview when validation flagged it. -/
def repairOverview (fd : Rec) (c : Company) (errors : List String) : Rec :=
  if errors.contains "Invalid overview text" then
    let expanded := expandOverviewText (getOr fd.overview_text "") c
    { fd with overview_text := some expanded }
  else fd

/-- Repair block, address part: restore a missing `hq_address_raw`. -/
def repairAddress (fd : Rec) (c : Company) : Rec :=
  if ¬ truthyS fd.hq_address_raw then
    let pref := getOr fd.prefecture_name (getOr c.prefecture "")
    let name := getOr fd.name (getOr c.name "企業")
    if pref ≠ "" then
      { fd with hq_address_raw := some (pref ++ "（" ++ name ++ "の本社所在地）") }
    else
      { fd with hq_address_raw := some (name ++ "の本社所在地（要確認）") }
  else fd

/-- Repair block, prefecture part: restore a missing `prefecture_name` from
the company input. -/
def repairPrefecture (fd : Rec) (c : Company) : Rec :=
  if ¬ truthyS fd.prefecture_name ∧ truthyS c.prefecture then
    { fd with prefecture_name := c.prefecture }
  else fd

/-- The validation-repair block of `PhaseC.format_and_synthesize`: expand a
too-short overview, restore a missing address and prefecture, and stamp
`status = "parse_error"` with the validation errors. -/
def repairValidation (fd : Rec) (c : Company) (errors : List String) : Rec :=
  { repairPrefecture (repairAddress (repairOverview fd c errors) c) c with
      status := some "parse_error", validation_errors := errors }

/-- Embedding of `PhaseC.format_and_synthesize`: on a successful synthesis call (the
draft record is the provider oracle's value), post-process, validate and
repair, returning envelope status `"success"`; when the synthesis step
throws, return the templated fallback record under envelope status
`"error"`. -/
def formatAndSynthesize (c : Company) (pa : CandidateURLSet) (pb : Option ExtractedData)
    (synthO : Except Unit Rec) (now : String) : Option (String × Rec) :=
  match synthO with
  | .error _ => some ("error", getFallbackResult c now)
  | .ok draft =>
    match postProcessData draft c pa pb now with
    | none => none
    | some fd =>
      let v := validate_company_data fd
      some ("success", if ¬ v.1 then repairValidation fd c v.2 else fd)

/-! ## `src/handlers/task_handler.py` -/

/-- Provider/store oracles of one `TaskHandler.process_company` run.
`get_company_status` and `upsert_company` catch their own exceptions
(returning `None` resp. `False`), so they are plain values; the provider
calls may raise. -/
structure TaskOracles where
  storeStatus : Option String := none
  search : Except Unit (List SearchResult) := .error ()
  extractO : Except Unit ExtractedData := .error ()
  synthO : Except Unit Rec := .error ()
  upsertMain : Bool := true
  upsertError : Bool := true
  deriving Repr

/-- The per-company outcome dict returned by `process_company`. -/
structure Outcome where
  status : String
  website : String
  error : Option String := none
  deriving Repr, DecidableEq

/-- Embedding of `BigQueryClient.upsert_company`: stamp `last_crawled_at` and MERGE by
`website`; the write reaches the store iff the upsert succeeds. -/
def storeUpsert (r : Rec) (ok : Bool) (now : String) : List Rec :=
  if ok then [{ r with last_crawled_at := some now }] else []

/-- Embedding of `TaskHandler._handle_error`: write an error-tagged record with
`status = "failed"` and return a failed outcome. -/
def handleError (c : Company) (errorMessage : String) (upsertOk : Bool) (now : String) :
    Outcome × Effects :=
  let website := getOr c.website "unknown"
  let errRec : Rec :=
    { website := some website
      name := c.name
      industry := c.industry
      status := some "failed"
      signals := some { error := some errorMessage }
      last_crawled_at := some (now ++ "Z") }
  ({ status := "failed", website := website, error := some errorMessage },
   { storeWrites := storeUpsert errRec upsertOk now })

/-- Embedding of `TaskHandler.process_company`: domain check, `acquire_both`, idempotency
check against the store, Phase A → B → C, final-record status stamping from
the Phase C envelope, store upsert; `none` again marks the unreachable
non-termination case of the pain padding. -/
def processCompany (c : Company) (o : TaskOracles) (now : String) :
    Option (Outcome × Effects) :=
  let website := getOr c.website "unknown"
  let domain := extract_apex_domain website
  if domain = "" then
    some (handleError c "invalid_domain" o.upsertError now)
  else
    let effAcq : Effects := { globalAcquires := 1, domainAcquires := 1 }
    if o.storeStatus = some "ok" then
      some ({ status := "skipped_already_ok", website := website }, effAcq)
    else
      let aOut := phase_a_search o.search
      let bOut := phase_b_extract aOut.1 o.extractO
      match formatAndSynthesize c aOut.1 bOut.1 o.synthO now with
      | none => none
      | some envelope =>
        let finalRecord := { envelope.2 with status := some envelope.1 }
        let effC : Effects :=
          { synthCalls := 1, phaseC := true, storeWrites := storeUpsert finalRecord o.upsertMain now }
        let eff := ((effAcq.add aOut.2).add bOut.2).add effC
        if o.upsertMain then
          some ({ status := "ok", website := website }, eff)
        else
          some ({ status := "failed", website := website,
                  error := some "bigquery_save_failed" }, eff)

/-! ## `src/handlers/direct_processor.py` -/

/-- Oracles of one `DirectProcessor._process_single_company` run: the
Perplexity `search_and_extract` and `search_address` calls, the address
merge plus OpenAI synthesis (whose raised exceptions are all caught by the
surrounding `except`), and the store upsert (which never raises). -/
structure DirectOracles where
  searchExtract : Except Unit ExtractedData := .error ()
  searchAddress : Except Unit (List String) := .error ()
  synth : Except Unit Rec := .error ()
  upsert : Bool := true
  deriving Repr

/-- Embedding of `DirectProcessor._process_single_company`: any raised exception is
caught and converted to `False`; no error record is written on the way,
the only store write is the successful upsert of the synthesized record. -/
def processSingleCompanyDirect (o : DirectOracles) (now : String) : Bool × List Rec :=
  match o.searchExtract with
  | .error _ => (false, [])
  | .ok _ =>
    match o.searchAddress with
    | .error _ => (false, [])
    | .ok _ =>
      match o.synth with
      | .error _ => (false, [])
      | .ok enriched => (o.upsert, storeUpsert enriched o.upsert now)

/-- Aggregate counters of `process_companies_direct`. -/
structure BatchStats where
  total : Nat := 0
  processed : Nat := 0
  success : Nat := 0
  errors : Nat := 0
  errors_detail : List String := []
  deriving Repr, DecidableEq

/-- Fold step of the `as_completed` loop: one future's outcome updates the
counters. -/
def directStep (now : String) (acc : BatchStats × List Rec) (entry : Company × DirectOracles) :
    BatchStats × List Rec :=
  let res := processSingleCompanyDirect entry.2 now
  let stats := { acc.1 with processed := acc.1.processed + 1 }
  let stats :=
    if res.1 then { stats with success := stats.success + 1 }
    else
      { stats with
          errors := stats.errors + 1
          errors_detail := stats.errors_detail ++ ["Failed: " ++ getOr entry.1.name "unknown"] }
  (stats, acc.2 ++ res.2)

/-- Embedding of `DirectProcessor.process_companies_direct`: process every company of
the batch, counting processed/success/errors.  (`as_completed` yields the
futures in a nondeterministic completion order; the input order is the
deterministic stand-in, and the claims about the counters are insensitive
to the order.) -/
def processCompaniesDirect (batch : List (Company × DirectOracles)) (now : String) :
    BatchStats × List Rec :=
  batch.foldl (directStep now) ({ total := batch.length }, [])

/-! ## `src/utils/rate_limiter.py`

The token bucket on a monotonic clock: the mutable state is the token
count and the last-refill instant; `acquire` lazily refills, sleeps while
fewer than one token is available (each wake-up refills again) and then
consumes one token.  The list of wake-up instants models the scheduler;
`none` means the caller is still waiting (the source never errors, it only
sleeps longer). -/

/-- Mutable state of one `RateLimiter` bucket. -/
structure RLState where
  tokens : ℚ
  lastRefill : ℚ
  deriving Repr, DecidableEq

/-- Embedding of `RateLimiter._refill_tokens`: add `elapsed * rate` tokens, capped at
the burst capacity. -/
def refillTokens (maxBurst rate : ℚ) (s : RLState) (now : ℚ) : RLState :=
  { tokens := min maxBurst (s.tokens + (now - s.lastRefill) * rate), lastRefill := now }

/-- The `while self.tokens < 1` loop of `RateLimiter.acquire` followed by
the decrement: consume one token as soon as at least one is available,
refilling at each wake-up instant. -/
def acquireAux (maxBurst rate : ℚ) : RLState → List ℚ → Option RLState
  | s, wakeups =>
    if 1 ≤ s.tokens then some { s with tokens := s.tokens - 1 }
    else
      match wakeups with
      | [] => none
      | t :: ts => acquireAux maxBurst rate (refillTokens maxBurst rate s t) ts

/-- Embedding of `RateLimiter.acquire`: refill once on entry, then wait-and-consume. -/
def rlAcquire (maxBurst rate : ℚ) (s : RLState) (now : ℚ) (wakeups : List ℚ) :
    Option RLState :=
  acquireAux maxBurst rate (refillTokens maxBurst rate s now) wakeups

/-- Embedding of `RateLimiter.__init__`: a fresh bucket starts full. -/
def rlInit (maxBurst : ℚ) (now : ℚ) : RLState :=
  { tokens := maxBurst, lastRefill := now }

/-! ## Rate limiter lemmas (claim C8) -/

theorem refillTokens_le_burst (maxBurst rate : ℚ) (s : RLState) (now : ℚ) :
    (refillTokens maxBurst rate s now).tokens ≤ maxBurst := by
  simp [refillTokens]

theorem refillTokens_nonneg (maxBurst rate : ℚ) (s : RLState) (now : ℚ)
    (hB : 0 ≤ maxBurst) (hr : 0 ≤ rate) (h0 : 0 ≤ s.tokens)
    (hnow : s.lastRefill ≤ now) : 0 ≤ (refillTokens maxBurst rate s now).tokens := by
  simp only [refillTokens, le_min_iff]
  refine ⟨hB, add_nonneg h0 (mul_nonneg ?_ hr)⟩
  linarith

theorem refillTokens_lastRefill (maxBurst rate : ℚ) (s : RLState) (now : ℚ) :
    (refillTokens maxBurst rate s now).lastRefill = now := rfl

theorem acquireAux_spec (maxBurst rate : ℚ) (hB : 0 ≤ maxBurst) (hr : 0 ≤ rate) :
    ∀ (wk : List ℚ) (s : RLState), 0 ≤ s.tokens → s.tokens ≤ maxBurst →
      List.Chain' (· ≤ ·) (s.lastRefill :: wk) →
      ∀ s', acquireAux maxBurst rate s wk = some s' →
        0 ≤ s'.tokens ∧ s'.tokens ≤ maxBurst ∧
        ∃ pre, 1 ≤ pre ∧ pre ≤ maxBurst ∧ s'.tokens = pre - 1 := by
  intro wk
  induction wk with
  | nil =>
    intro s h0 h1 _ s' hacq
    unfold acquireAux at hacq
    split at hacq
    · rename_i hge
      cases hacq
      exact ⟨by simp only; linarith, by simp only; linarith, s.tokens, hge, h1, rfl⟩
    · cases hacq
  | cons t ts ih =>
    intro s h0 h1 hchain s' hacq
    unfold acquireAux at hacq
    split at hacq
    · rename_i hge
      cases hacq
      exact ⟨by simp only; linarith, by simp only; linarith, s.tokens, hge, h1, rfl⟩
    · have hle : s.lastRefill ≤ t := (List.chain'_cons.mp hchain).1
      have htail : List.Chain' (· ≤ ·) (t :: ts) := (List.chain'_cons.mp hchain).2
      exact ih (refillTokens maxBurst rate s t)
        (refillTokens_nonneg maxBurst rate s t hB hr h0 hle)
        (refillTokens_le_burst maxBurst rate s t)
        (by rw [refillTokens_lastRefill]; exact htail) s' hacq

/-- C8: for a `RateLimiter` with burst capacity `maxBurst` and refill rate
`rate` (both nonnegative) on a monotonic clock, the token count stays in
`[0, maxBurst]`: a fresh bucket starts at the capacity, the lazy refill on
acquire never exceeds the capacity, and every successful `acquire` consumes
exactly one token from a pre-decrement count in `[1, maxBurst]`, leaving a
count in `[0, maxBurst]`.  `acquire` has no error result: it either
succeeds (`some`) or is still waiting for a wake-up (`none`). -/
theorem rateLimiter_token_bounds (maxBurst rate : ℚ) (s : RLState) (now : ℚ)
    (wk : List ℚ) (hB : 0 ≤ maxBurst) (hr : 0 ≤ rate) (h0 : 0 ≤ s.tokens)
    (h1 : s.tokens ≤ maxBurst) (hnow : s.lastRefill ≤ now)
    (hchain : List.Chain' (· ≤ ·) (now :: wk)) :
    (0 ≤ (rlInit maxBurst now).tokens ∧ (rlInit maxBurst now).tokens ≤ maxBurst) ∧
    (refillTokens maxBurst rate s now).tokens ≤ maxBurst ∧
    (∀ s', rlAcquire maxBurst rate s now wk = some s' →
      0 ≤ s'.tokens ∧ s'.tokens ≤ maxBurst ∧
      ∃ pre, 1 ≤ pre ∧ pre ≤ maxBurst ∧ s'.tokens = pre - 1) := by
  refine ⟨⟨hB, le_refl _⟩, refillTokens_le_burst maxBurst rate s now, ?_⟩
  intro s' hacq
  exact acquireAux_spec maxBurst rate hB hr wk (refillTokens maxBurst rate s now)
    (refillTokens_nonneg maxBurst rate s now hB hr h0 hnow)
    (refillTokens_le_burst maxBurst rate s now)
    (by rw [refillTokens_lastRefill]; exact hchain) s' hacq

/-- C8 witness: the theorem applied to a bucket with capacity 2, rate 1,
full at time 0, acquiring immediately. -/
theorem rateLimiter_token_bounds_witness :
    ((0:ℚ) ≤ 2 ∧ (0:ℚ) ≤ 1 ∧ (0:ℚ) ≤ (2:ℚ) ∧ (2:ℚ) ≤ 2 ∧ (0:ℚ) ≤ (0:ℚ) ∧
      List.Chain' (· ≤ ·) [(0:ℚ)]) ∧
    ((0 ≤ (rlInit 2 0).tokens ∧ (rlInit 2 0).tokens ≤ 2) ∧
      (refillTokens 2 1 ⟨2, 0⟩ 0).tokens ≤ 2 ∧
      (∀ s', rlAcquire 2 1 ⟨2, 0⟩ 0 [] = some s' →
        0 ≤ s'.tokens ∧ s'.tokens ≤ 2 ∧
        ∃ pre, 1 ≤ pre ∧ pre ≤ 2 ∧ s'.tokens = pre - 1)) := by
  refine ⟨⟨by norm_num, by norm_num, by norm_num, by norm_num, by norm_num,
    List.chain'_singleton _⟩, ?_⟩
  exact rateLimiter_token_bounds 2 1 ⟨2, 0⟩ 0 [] (by norm_num) (by norm_num)
    (by norm_num) (by norm_num) (by norm_num) (List.chain'_singleton _)

/-! ## Employee-count extraction (claim C10) -/

theorem extractEmployeeGo_spec (text : String) :
    ∀ (pats : List EmpPattern) (res : Nat × String),
      extractEmployeeGo text pats = some res →
      res.2 = text ∧ 0 < res.1 ∧
      ∃ pre p suf, pats = pre ++ p :: suf ∧ res.1 = patternMax p text ∧
        ∀ q ∈ pre, patternMax q text = 0 := by
  intro pats
  induction pats with
  | nil => intro res h; simp [extractEmployeeGo] at h
  | cons p ps ih =>
    intro res h
    unfold extractEmployeeGo at h
    split at h
    · split at h
      · rename_i hpos
        cases h
        exact ⟨rfl, hpos, [], p, ps, rfl, rfl, by intro q hq; cases hq⟩
      · rename_i hpos
        obtain ⟨h1, h2, pre, p', suf, heq, hmax, hpre⟩ := ih res h
        refine ⟨h1, h2, p :: pre, p', suf, by rw [heq]; rfl, hmax, ?_⟩
        intro q hq
        rcases List.mem_cons.mp hq with rfl | hq
        · omega
        · exact hpre _ hq
    · rename_i hempty
      obtain ⟨h1, h2, pre, p', suf, heq, hmax, hpre⟩ := ih res h
      refine ⟨h1, h2, p :: pre, p', suf, by rw [heq]; rfl, hmax, ?_⟩
      intro q hq
      rcases List.mem_cons.mp hq with rfl | hq
      · simp only [ne_eq, not_not] at hempty
        simp only [patternMax, hempty]
        rfl
      · exact hpre _ hq

/-- C10 (amended): `extract_employee_count` returns either `none` or
`(n, text)` where `n` is strictly positive and equal to the maximum of the
parsed digit groups of the *first* employee-count pattern whose maximum is
positive (the patterns before it all yield maximum 0); it never returns a
zero or negative count, and the source component is the input text. -/
theorem extract_employee_count_pos (text : String) :
    extract_employee_count text = none ∨
    ∃ n, extract_employee_count text = some (n, text) ∧ 0 < n ∧
      ∃ pre p suf, EMPLOYEE_PATTERNS = pre ++ p :: suf ∧ n = patternMax p text ∧
        ∀ q ∈ pre, patternMax q text = 0 := by
  unfold extract_employee_count
  split
  · exact Or.inl rfl
  · cases hgo : extractEmployeeGo text EMPLOYEE_PATTERNS with
    | none => exact Or.inl rfl
    | some res =>
      obtain ⟨h1, h2, pre, p, suf, heq, hmax, hpre⟩ := extractEmployeeGo_spec text _ res hgo
      refine Or.inr ⟨res.1, ?_, h2, pre, p, suf, heq, hmax, hpre⟩
      rw [← h1]

/-- C10 witness: the amended theorem evaluated on a text containing both a
Japanese and an English employee-count mention. -/
theorem extract_employee_count_pos_witness :
    extract_employee_count "従業員数5 Employees: 100" = none ∨
    ∃ n, extract_employee_count "従業員数5 Employees: 100" =
        some (n, "従業員数5 Employees: 100") ∧ 0 < n ∧
      ∃ pre p suf, EMPLOYEE_PATTERNS = pre ++ p :: suf ∧
        n = patternMax p "従業員数5 Employees: 100" ∧
        ∀ q ∈ pre, patternMax q "従業員数5 Employees: 100" = 0 :=
  extract_employee_count_pos "従業員数5 Employees: 100"

/-- C10 counterexample: on `"従業員数5 Employees: 100"` the function
returns 5 (the maximum of the first matching pattern), not the maximum 100
over all digit groups matched by the employee-count patterns, refuting
the "maximum over all digit groups" reading of the claim. -/
theorem extract_employee_count_counterexample :
    extract_employee_count "従業員数5 Employees: 100" =
      some (5, "従業員数5 Employees: 100") ∧
    (⟨"Employee", true, false⟩ : EmpPattern) ∈ EMPLOYEE_PATTERNS ∧
    patternMax ⟨"Employee", true, false⟩ "従業員数5 Employees: 100" = 100 ∧
    (5 : Nat) < 100 := by
  refine ⟨by decide, by decide, by decide, by decide⟩

/-! ## Pain-hypothesis generation (claim C2) -/

theorem pyDedupAux_spec : ∀ (l seen : List String),
    (pyDedupAux seen l).Nodup ∧ ∀ x ∈ pyDedupAux seen l, x ∉ seen := by
  intro l
  induction l with
  | nil => intro seen; exact ⟨List.nodup_nil, by intro x hx; cases hx⟩
  | cons a l ih =>
    intro seen
    unfold pyDedupAux
    split
    · exact ih seen
    · rename_i hnc
      obtain ⟨hnodup, hmem⟩ := ih (a :: seen)
      have hna : a ∉ pyDedupAux (a :: seen) l := by
        intro hx
        exact (hmem a hx) (List.mem_cons_self a seen)
      refine ⟨List.nodup_cons.mpr ⟨hna, hnodup⟩, ?_⟩
      intro x hx
      rcases List.mem_cons.mp hx with rfl | hx
      · simpa using hnc
      · exact fun hs => (hmem x hx) (List.mem_cons_of_mem a hs)

theorem pyDedup_nodup (l : List String) : (pyDedup l).Nodup :=
  (pyDedupAux_spec l []).1

theorem exists_fresh_generic (hyps : List String) (hn : hyps.Nodup)
    (hlen : hyps.length < 5) :
    ∃ p, genericPains.find? (fun p => !(hyps.contains p)) = some p := by
  cases hfind : genericPains.find? (fun p => !(hyps.contains p)) with
  | some p => exact ⟨p, rfl⟩
  | none =>
    exfalso
    have hall := List.find?_eq_none.mp hfind
    have hsub : ∀ x ∈ genericPains, x ∈ hyps := by
      intro x hx
      have := hall x hx
      simpa using this
    have hgnodup : genericPains.Nodup := by decide
    have hcard : genericPains.toFinset.card = genericPains.length :=
      List.toFinset_card_of_nodup hgnodup
    have hsub' : genericPains.toFinset ⊆ hyps.toFinset := by
      intro x hx
      rw [List.mem_toFinset] at hx ⊢
      exact hsub x hx
    have h1 := Finset.card_le_card hsub'
    have h2 := hyps.toFinset_card_le
    have h3 : genericPains.length = 5 := by decide
    omega

theorem padPains_spec : ∀ (fuel : Nat) (hyps : List String), hyps.Nodup →
    hyps.length ≤ 5 → 1 ≤ fuel → 4 ≤ hyps.length + fuel →
    ∃ r, padPains fuel hyps = some r ∧ r.Nodup ∧ 3 ≤ r.length ∧ r.length ≤ 5 := by
  intro fuel
  induction fuel with
  | zero => intro hyps _ _ h1 _; omega
  | succ f ih =>
    intro hyps hn hlen _ hsum
    unfold padPains
    split
    · rename_i hlt
      obtain ⟨p, hfind⟩ := exists_fresh_generic hyps hn (by omega)
      rw [hfind]
      have hfresh : p ∉ hyps := by
        have := List.find?_some hfind
        simpa using this
      have hnodup' : (hyps ++ [p]).Nodup :=
        ((List.perm_append_singleton p hyps).nodup_iff).mpr
          (List.nodup_cons.mpr ⟨hfresh, hn⟩)
      have hlen' : (hyps ++ [p]).length = hyps.length + 1 := by simp
      exact ih (hyps ++ [p]) hnodup' (by omega) (by omega) (by omega)
    · rename_i hge
      exact ⟨hyps, rfl, hn, by omega, hlen⟩

theorem generate_pain_hypotheses_spec (industry : String) (emp : Option Int)
    (kws : List String) :
    ∃ r, generate_pain_hypotheses industry emp kws = some r ∧
      3 ≤ r.length ∧ r.length ≤ 5 ∧ r.Nodup := by
  unfold generate_pain_hypotheses
  have hyps_nodup : ((pyDedup (buildBasePains industry emp kws)).take 5).Nodup :=
    (pyDedup_nodup _).sublist (List.take_sublist 5 _)
  have hyps_len : ((pyDedup (buildBasePains industry emp kws)).take 5).length ≤ 5 := by
    simpa using List.length_take_le 5 (pyDedup (buildBasePains industry emp kws))
  obtain ⟨r, hr, hnodup, h3, h5⟩ := padPains_spec 4 _ hyps_nodup hyps_len (by omega) (by omega)
  rw [hr]
  refine ⟨r.take 5, rfl, ?_, ?_, hnodup.sublist (List.take_sublist 5 r)⟩
  · simp only [List.length_take]
    omega
  · simp only [List.length_take]
    omega

/-! ### Field-preservation lemmas through the post-processing steps -/

theorem addrStep1_pain (r : Rec) (pb : Option ExtractedData) :
    (addrStep1 r pb).pain_hypotheses = r.pain_hypotheses := by
  unfold addrStep1
  dsimp only
  repeat' split
  all_goals rfl

theorem addrStep2_pain (r : Rec) (c : Company) :
    (addrStep2 r c).pain_hypotheses = r.pain_hypotheses := by
  unfold addrStep2
  split <;> rfl

theorem addrStep3_pain (r : Rec) (c : Company) :
    (addrStep3 r c).pain_hypotheses = r.pain_hypotheses := by
  unfold addrStep3
  dsimp only
  repeat' split
  all_goals rfl

theorem addrStep4_pain (r : Rec) :
    (addrStep4 r).pain_hypotheses = r.pain_hypotheses := by
  unfold addrStep4
  split <;> rfl

theorem addrStep5_pain (r : Rec) (c : Company) :
    (addrStep5 r c).pain_hypotheses = r.pain_hypotheses := by
  unfold addrStep5
  dsimp only
  repeat' split
  all_goals rfl

theorem addrStep6_pain (r : Rec) (c : Company) :
    (addrStep6 r c).pain_hypotheses = r.pain_hypotheses := by
  unfold addrStep6
  dsimp only
  repeat' split
  all_goals rfl

theorem processAddressInfo_pain (r : Rec) (c : Company) (pb : Option ExtractedData) :
    (processAddressInfo r c pb).pain_hypotheses = r.pain_hypotheses := by
  unfold processAddressInfo
  rw [addrStep6_pain, addrStep5_pain, addrStep4_pain, addrStep3_pain, addrStep2_pain,
    addrStep1_pain]

theorem personalizationStep_pain (nd : Rec) :
    (personalizationStep nd).pain_hypotheses = nd.pain_hypotheses := by
  unfold personalizationStep
  split <;> rfl

theorem cleanTextFields_pain (nd : Rec) :
    (cleanTextFields nd).pain_hypotheses = nd.pain_hypotheses := rfl

theorem attachMetadata_pain (nd : Rec) (pa : CandidateURLSet) (pb : Option ExtractedData)
    (now : String) : (attachMetadata nd pa pb now).pain_hypotheses = nd.pain_hypotheses := rfl

/-- The function `painsRepair` always succeeds and only (possibly)
rewrites the `pain_hypotheses` field. -/
theorem painsRepair_shape (nd : Rec) :
    ∃ ph, painsRepair nd = some { nd with pain_hypotheses := ph } := by
  obtain ⟨r, hr, _, _, _⟩ := generate_pain_hypotheses_spec (getOr nd.industry "")
    nd.employee_count (extractNewsKeywords nd.recent_news)
  unfold painsRepair
  cases hp : nd.pain_hypotheses with
  | none =>
    dsimp only
    rw [if_pos rfl, hr]
    exact ⟨some r, rfl⟩
  | some l =>
    dsimp only
    by_cases hl : l.length < 3
    · rw [if_pos (by simpa using hl), hr]
      exact ⟨some r, rfl⟩
    · rw [if_neg (by simpa using hl)]
      exact ⟨nd.pain_hypotheses, rfl⟩

/-- When the (possibly missing) pain list has fewer than 3 entries,
`painsRepair` replaces it by a generated list of 3 to 5 distinct pains. -/
theorem painsRepair_needed (nd : Rec)
    (h : ∀ l, nd.pain_hypotheses = some l → l.length < 3) :
    ∃ r, painsRepair nd = some { nd with pain_hypotheses := some r } ∧
      3 ≤ r.length ∧ r.length ≤ 5 ∧ r.Nodup := by
  obtain ⟨r, hr, h3, h5, hn⟩ := generate_pain_hypotheses_spec (getOr nd.industry "")
      nd.employee_count (extractNewsKeywords nd.recent_news)
  refine ⟨r, ?_, h3, h5, hn⟩
  unfold painsRepair
  cases hp : nd.pain_hypotheses with
  | none =>
    dsimp only
    rw [if_pos rfl, hr]
  | some l =>
    dsimp only
    rw [if_pos (by simpa using h l hp), hr]

/-- The function `postProcessData` always succeeds, in the normal form
used by the claim-level theorems. -/
theorem postProcessData_eq (formatted : Rec) (c : Company) (pa : CandidateURLSet)
    (pb : Option ExtractedData) (now : String) :
    ∃ ph, postProcessData formatted c pa pb now =
      some (attachMetadata (cleanTextFields (personalizationStep
        { processAddressInfo (normalize_company_data formatted) c pb with
            pain_hypotheses := ph })) pa pb now) := by
  unfold postProcessData
  dsimp only
  obtain ⟨ph, hp⟩ := painsRepair_shape (processAddressInfo (normalize_company_data formatted) c pb)
  rw [hp]
  exact ⟨ph, rfl⟩

/-- C2: `generate_pain_hypotheses` terminates on every input and returns
between 3 and 5 pairwise-distinct strings; consequently, whenever the
Phase C draft has fewer than 3 `pain_hypotheses` (or none at all), the
post-processed record carries between 3 and 5 deduplicated
`pain_hypotheses`. -/
theorem pain_hypotheses_generation (industry : String) (emp : Option Int)
    (kws : List String) (formatted : Rec) (c : Company) (pa : CandidateURLSet)
    (pb : Option ExtractedData) (now : String)
    (hdraft : ∀ l, formatted.pain_hypotheses = some l → l.length < 3) :
    (∃ r, generate_pain_hypotheses industry emp kws = some r ∧
       3 ≤ r.length ∧ r.length ≤ 5 ∧ r.Nodup) ∧
    (∃ fd r, postProcessData formatted c pa pb now = some fd ∧
       fd.pain_hypotheses = some r ∧ 3 ≤ r.length ∧ r.length ≤ 5 ∧ r.Nodup) := by
  refine ⟨generate_pain_hypotheses_spec industry emp kws, ?_⟩
  have hnormlt : ∀ l', (normalize_company_data formatted).pain_hypotheses = some l' →
      l'.length < 3 := by
    intro l' hl'
    unfold normalize_company_data at hl'
    simp only at hl'
    cases hform : formatted.pain_hypotheses with
    | none => rw [hform] at hl'; cases hl'
    | some l =>
      rw [hform] at hl'
      by_cases hne : l = []
      · subst hne
        simp at hl'
        subst hl'
        simpa using hdraft [] hform
      · simp only [if_pos hne] at hl'
        cases hl'
        calc ((l.filter (fun h => h ≠ "" && sanitize_text h ≠ "")).map sanitize_text).length
            = (l.filter (fun h => h ≠ "" && sanitize_text h ≠ "")).length := by
              rw [List.length_map]
          _ ≤ l.length := List.length_filter_le _ l
          _ < 3 := hdraft l hform
  set nd := processAddressInfo (normalize_company_data formatted) c pb with hnd
  have hndpain : nd.pain_hypotheses = (normalize_company_data formatted).pain_hypotheses :=
    processAddressInfo_pain _ c pb
  obtain ⟨r, hrep, h3, h5, hnodup⟩ := painsRepair_needed nd (by
    intro l hl
    rw [hndpain] at hl
    exact hnormlt l hl)
  unfold postProcessData
  dsimp only
  rw [← hnd, hrep]
  refine ⟨_, r, rfl, ?_, h3, h5, hnodup⟩
  rw [attachMetadata_pain, cleanTextFields_pain, personalizationStep_pain]

/-- C2 witness: the theorem applied to a company in the IT industry with
100 employees and a draft with a single pain hypothesis. -/
theorem pain_hypotheses_generation_witness :
    (∀ l, ({ pain_hypotheses := some ["x"] } : Rec).pain_hypotheses = some l →
      l.length < 3) ∧
    ((∃ r, generate_pain_hypotheses "IT・web" (some 100) ["AI導入"] = some r ∧
       3 ≤ r.length ∧ r.length ≤ 5 ∧ r.Nodup) ∧
     (∃ fd r, postProcessData { pain_hypotheses := some ["x"] } {} {} none "t" = some fd ∧
       fd.pain_hypotheses = some r ∧ 3 ≤ r.length ∧ r.length ≤ 5 ∧ r.Nodup)) := by
  refine ⟨?_, pain_hypotheses_generation "IT・web" (some 100) ["AI導入"]
    { pain_hypotheses := some ["x"] } {} {} none "t" ?_⟩ <;>
  · intro l hl
    cases hl
    decide

/-! ## Graceful degradation of Phases A and B (claim C5) -/

/-- C5: when the `SearchProvider` call raises, `phase_a_search` swallows the
exception and returns a `CandidateURLSet` with all five categories empty;
and on a candidate set whose URL union is empty, `phase_b_extract` returns
the empty result `{}` without acquiring rate-limit tokens or calling the
`ExtractionProvider`, so that the Phase C input fields and the
`phase_b_elements_found` signal are all empty/zero. -/
theorem phase_degradation (candidateUrls : CandidateURLSet)
    (extractO : Except Unit ExtractedData) (nd : Rec) (pa : CandidateURLSet)
    (now : String) (hempty : allUrls candidateUrls = []) :
    (phase_a_search (.error ())).1 = ({} : CandidateURLSet) ∧
    (phase_b_extract candidateUrls extractO).1 = none ∧
    (phase_b_extract candidateUrls extractO).2.extractCalls = 0 ∧
    (phase_b_extract candidateUrls extractO).2.globalAcquires = 0 ∧
    (phase_b_extract candidateUrls extractO).2.domainAcquires = 0 ∧
    prepareInputData (phase_b_extract candidateUrls extractO).1 = ({} : ExtractedData) ∧
    (attachMetadata nd pa (phase_b_extract candidateUrls extractO).1 now).signals =
      some { phase_a_urls_found := (allUrls pa).length
             phase_b_elements_found := 0
             processing_timestamp := some now } := by
  have hb : phase_b_extract candidateUrls extractO = (none, { phaseB := true }) := by
    unfold phase_b_extract
    rw [if_pos hempty]
  rw [hb]
  exact ⟨rfl, rfl, rfl, rfl, rfl, rfl, rfl⟩

/-- C5 witness: the theorem applied to the empty candidate set. -/
theorem phase_degradation_witness :
    allUrls ({} : CandidateURLSet) = [] ∧
    ((phase_a_search (.error ())).1 = ({} : CandidateURLSet) ∧
     (phase_b_extract {} (.ok {})).1 = none ∧
     (phase_b_extract {} (.ok {})).2.extractCalls = 0 ∧
     (phase_b_extract {} (.ok {})).2.globalAcquires = 0 ∧
     (phase_b_extract {} (.ok {})).2.domainAcquires = 0 ∧
     prepareInputData (phase_b_extract {} (.ok {})).1 = ({} : ExtractedData) ∧
     (attachMetadata {} {} (phase_b_extract {} (.ok {})).1 "t").signals =
       some { phase_a_urls_found := (allUrls ({} : CandidateURLSet)).length
              phase_b_elements_found := 0
              processing_timestamp := some "t" }) :=
  ⟨rfl, phase_degradation {} (.ok {}) {} {} "t" rfl⟩

/-! ## Phase A categorisation (claim C7) -/

/-- The five URL category lists of a candidate set, indexed by
`PageCat`. -/
def catList (u : CandidateURLSet) : PageCat → List String
  | .about => u.about_pages
  | .business => u.business_pages
  | .product => u.product_pages
  | .news => u.news_pages
  | .legal => u.legal_pages

theorem foldl_appendResult (results : List SearchResult) :
    ∀ acc : CandidateURLSet, ∀ cat : PageCat,
      catList (results.foldl appendResult acc) cat =
        catList acc cat ++
          (results.filter (fun r => decide (categorize r = cat))).map (·.url) := by
  induction results with
  | nil => intro acc cat; simp
  | cons r rs ih =>
    intro acc cat
    have step : ∀ cat', catList (appendResult acc r) cat' =
        catList acc cat' ++ (if categorize r = cat' then [r.url] else []) := by
      intro cat'
      unfold appendResult
      cases hcat : categorize r <;> cases cat' <;> simp [catList]
    rw [List.foldl_cons, ih (appendResult acc r) cat, step cat, List.filter_cons]
    by_cases hc : categorize r = cat
    · simp [hc]
    · simp [hc]

theorem categorizeResults_catList (results : List SearchResult) (cat : PageCat) :
    catList (categorizeResults results) cat =
      ((results.filter (fun r => decide (categorize r = cat))).map (·.url)).take 5 := by
  have h := foldl_appendResult results {} cat
  unfold categorizeResults
  cases cat <;>
    simp only [catList] <;>
    rw [show (results.foldl appendResult {}) = results.foldl appendResult {} from rfl] <;>
    simp [catList] at h <;>
    simp [h, catList]

/-- C7 (amended): `phase_a_search` on a successful search categorises each
result into exactly the first category whose keyword set matches its
(lowercased) URL or title, with unmatched results defaulting to `about`;
every category holds at most 5 URLs; and the categories are pairwise
disjoint whenever the search results carry pairwise-distinct URLs (two
results sharing a URL but matching different categories place that URL in
both categories). -/
theorem phase_a_categorization (results : List SearchResult) :
    ((phase_a_search (.ok results)).1 = categorizeResults results) ∧
    (∀ cat, catList (categorizeResults results) cat =
      ((results.filter (fun r => decide (categorize r = cat))).map (·.url)).take 5) ∧
    (∀ cat, (catList (categorizeResults results) cat).length ≤ 5) ∧
    (∀ r : SearchResult,
      ¬ anyKw aboutKeywords (asciiLower r.url) (asciiLower r.title) →
      ¬ anyKw businessKeywords (asciiLower r.url) (asciiLower r.title) →
      ¬ anyKw productKeywords (asciiLower r.url) (asciiLower r.title) →
      ¬ anyKw newsPageKeywords (asciiLower r.url) (asciiLower r.title) →
      ¬ anyKw legalKeywords (asciiLower r.url) (asciiLower r.title) →
      categorize r = .about) ∧
    ((results.map (·.url)).Nodup → ∀ c₁ c₂ : PageCat, c₁ ≠ c₂ → ∀ u,
      u ∈ catList (categorizeResults results) c₁ →
      u ∈ catList (categorizeResults results) c₂ → False) := by
  refine ⟨rfl, categorizeResults_catList results, ?_, ?_, ?_⟩
  · intro cat
    rw [categorizeResults_catList]
    simpa using List.length_take_le 5 _
  · intro r h1 h2 h3 h4 h5
    unfold categorize
    rw [if_neg (by simpa using h1), if_neg (by simpa using h2), if_neg (by simpa using h3),
      if_neg (by simpa using h4), if_neg (by simpa using h5)]
  · intro hnodup c₁ c₂ hne u hu₁ hu₂
    rw [categorizeResults_catList] at hu₁ hu₂
    have hu₁' := List.mem_of_mem_take hu₁
    have hu₂' := List.mem_of_mem_take hu₂
    obtain ⟨r₁, hr₁, hurl₁⟩ := List.mem_map.mp hu₁'
    obtain ⟨r₂, hr₂, hurl₂⟩ := List.mem_map.mp hu₂'
    obtain ⟨hr₁m, hc₁⟩ := List.mem_filter.mp hr₁
    obtain ⟨hr₂m, hc₂⟩ := List.mem_filter.mp hr₂
    have hreq : r₁ = r₂ := by
      have hinj := List.inj_on_of_nodup_map hnodup
      exact hinj hr₁m hr₂m (by rw [hurl₁, hurl₂])
    apply hne
    have hc₁' : categorize r₁ = c₁ := by simpa using hc₁
    have hc₂' : categorize r₂ = c₂ := by simpa using hc₂
    rw [← hc₁', hreq, hc₂']

/-- C7 witness: the amended theorem applied to one matched and one
unmatched result with distinct URLs. -/
theorem phase_a_categorization_witness :
    (([⟨"https://x.example/about", "About"⟩, ⟨"https://x.example/q", "misc"⟩] :
        List SearchResult).map (·.url)).Nodup ∧
    catList (categorizeResults
        [⟨"https://x.example/about", "About"⟩, ⟨"https://x.example/q", "misc"⟩]) .about =
      ["https://x.example/about", "https://x.example/q"] ∧
    (∀ c₁ c₂ : PageCat, c₁ ≠ c₂ → ∀ u,
      u ∈ catList (categorizeResults
        [⟨"https://x.example/about", "About"⟩, ⟨"https://x.example/q", "misc"⟩]) c₁ →
      u ∈ catList (categorizeResults
        [⟨"https://x.example/about", "About"⟩, ⟨"https://x.example/q", "misc"⟩]) c₂ →
      False) := by
  refine ⟨by decide, by decide, ?_⟩
  exact (phase_a_categorization _).2.2.2.2 (by decide)

/-- C7 counterexample: two search results sharing one URL, the first
matching the about keywords and the second the news keywords, place the
same URL in both `about_pages` and `news_pages`: the categories of a
`CandidateURLSet` are not pairwise disjoint in general. -/
theorem phase_a_disjointness_counterexample :
    "https://x.example/p" ∈
      (phase_a_search (.ok [⟨"https://x.example/p", "About"⟩,
        ⟨"https://x.example/p", "News"⟩])).1.about_pages ∧
    "https://x.example/p" ∈
      (phase_a_search (.ok [⟨"https://x.example/p", "About"⟩,
        ⟨"https://x.example/p", "News"⟩])).1.news_pages := by
  refine ⟨by decide, by decide⟩

/-! ## Idempotent skip (claim C3) and per-company status (claim C1) -/

/-- C3 (amended): when the stored status of a company is already `"ok"`
(and its website yields a nonempty apex domain), `process_company` returns
outcome `skipped_already_ok` without running Phase A, B or C, without any
provider call and without writing to the store — but only after
`acquire_both` has consumed one global and one per-domain rate-limit token,
because the acquisition precedes the idempotency check. -/
theorem idempotent_skip (c : Company) (o : TaskOracles) (now : String)
    (hdomain : ¬ extract_apex_domain (getOr c.website "unknown") = "")
    (hok : o.storeStatus = some "ok") :
    processCompany c o now =
      some ({ status := "skipped_already_ok", website := getOr c.website "unknown" },
        { globalAcquires := 1, domainAcquires := 1 }) := by
  unfold processCompany
  dsimp only
  rw [if_neg hdomain, if_pos hok]

/-- C3 witness: the amended theorem applied to a company whose record is
already `ok`. -/
theorem idempotent_skip_witness :
    (¬ extract_apex_domain (getOr (some "https://acme.example") "unknown") = "" ∧
     ({ storeStatus := some "ok" } : TaskOracles).storeStatus = some "ok") ∧
    processCompany ⟨some "https://acme.example", some "Acme", some "IT", none⟩
        { storeStatus := some "ok" } "t" =
      some ({ status := "skipped_already_ok", website := "https://acme.example" },
        { globalAcquires := 1, domainAcquires := 1 }) :=
  ⟨⟨by decide, rfl⟩,
   idempotent_skip ⟨some "https://acme.example", some "Acme", some "IT", none⟩
     { storeStatus := some "ok" } "t" (by decide) rfl⟩

/-- C3 counterexample: the claim as stated requires that the skip consumes
no rate-limit tokens, but on a concrete already-`ok` company the skip path
reports one global and one per-domain acquisition (`acquire_both` runs
before the status check at `task_handler.py:61-64`). -/
theorem idempotent_skip_consumes_tokens :
    (processCompany ⟨some "https://acme.example", some "Acme", some "IT", none⟩
        { storeStatus := some "ok" } "t").map (fun p => p.1.status) =
      some "skipped_already_ok" ∧
    (processCompany ⟨some "https://acme.example", some "Acme", some "IT", none⟩
        { storeStatus := some "ok" } "t").map (fun p => p.2.globalAcquires) = some 1 ∧
    (processCompany ⟨some "https://acme.example", some "Acme", some "IT", none⟩
        { storeStatus := some "ok" } "t").map (fun p => p.2.domainAcquires) = some 1 ∧
    (processCompany ⟨some "https://acme.example", some "Acme", some "IT", none⟩
        { storeStatus := some "ok" } "t").map (fun p => p.2.storeWrites) = some [] ∧
    (processCompany ⟨some "https://acme.example", some "Acme", some "IT", none⟩
        { storeStatus := some "ok" } "t").map (fun p => p.2.phaseA) = some false ∧
    (processCompany ⟨some "https://acme.example", some "Acme", some "IT", none⟩
        { storeStatus := some "ok" } "t").map (fun p => p.2.phaseB) = some false ∧
    (processCompany ⟨some "https://acme.example", some "Acme", some "IT", none⟩
        { storeStatus := some "ok" } "t").map (fun p => p.2.phaseC) = some false ∧
    (1 : Nat) ≠ 0 := by
  exact ⟨by decide, by decide, by decide, by decide, by decide, by decide, by decide,
    by decide⟩

/-- C1 (code bug): on a successfully processed company the record written
to the store carries `status = "success"` — the Phase C *envelope* status
copied over the record at `task_handler.py:81` — and on a Phase C fallback
it carries `status = "error"`; neither value is in the specified set
{ok, parse_error, failed, skipped_already_ok}, and a record stored as
`"success"` is never recognised by the idempotency check
(`existing_status == 'ok'`) of the same file. -/
theorem process_company_status_code_bug :
    ((processCompany ⟨some "https://acme.example", some "Acme", some "IT", none⟩
        { storeStatus := none, search := .ok [], extractO := .ok {},
          synthO := .ok {}, upsertMain := true, upsertError := true } "t").map
      (fun p => p.1.status)) = some "ok" ∧
    ((processCompany ⟨some "https://acme.example", some "Acme", some "IT", none⟩
        { storeStatus := none, search := .ok [], extractO := .ok {},
          synthO := .ok {}, upsertMain := true, upsertError := true } "t").map
      (fun p => p.2.storeWrites.map (·.status))) = some [some "success"] ∧
    ((processCompany ⟨some "https://acme.example", some "Acme", some "IT", none⟩
        { storeStatus := none, search := .ok [], extractO := .ok {},
          synthO := .error (), upsertMain := true, upsertError := true } "t").map
      (fun p => p.2.storeWrites.map (·.status))) = some [some "error"] ∧
    "success" ∉ ["ok", "parse_error", "failed", "skipped_already_ok"] ∧
    "error" ∉ ["ok", "parse_error", "failed", "skipped_already_ok"] := by
  exact ⟨by decide, by decide, by decide, by decide, by decide⟩

/-! ## Batch isolation and aggregate counters (claim C9) -/

theorem processCompaniesDirect_fold (now : String) :
    ∀ (batch : List (Company × DirectOracles)) (acc : BatchStats × List Rec),
      (batch.foldl (directStep now) acc).1.total = acc.1.total ∧
      (batch.foldl (directStep now) acc).1.processed = acc.1.processed + batch.length ∧
      (batch.foldl (directStep now) acc).1.success + (batch.foldl (directStep now) acc).1.errors =
        acc.1.success + acc.1.errors + batch.length := by
  intro batch
  induction batch with
  | nil => intro acc; exact ⟨rfl, by simp, by simp⟩
  | cons e rest ih =>
    intro acc
    rw [List.foldl_cons]
    obtain ⟨h1, h2, h3⟩ := ih (directStep now acc e)
    have hstep : (directStep now acc e).1.total = acc.1.total ∧
        (directStep now acc e).1.processed = acc.1.processed + 1 ∧
        (directStep now acc e).1.success + (directStep now acc e).1.errors =
          acc.1.success + acc.1.errors + 1 := by
      unfold directStep
      dsimp only
      split <;> exact ⟨rfl, rfl, by dsimp only; omega⟩
    refine ⟨h1.trans hstep.1, ?_, ?_⟩
    · rw [h2, hstep.2.1, List.length_cons]
      omega
    · rw [h3, hstep.2.2, List.length_cons]
      omega

/-- C9 (amended): a raising company does not abort the batch — the
dispatcher catches the exception and keeps processing, the final
`processed` count equals the input batch size and equals
`success + errors` — but on the direct-processing path no error-tagged
record is written to the store for a raising company (its caught exception
produces `False` and nothing else); an error record with
`status = "failed"` is only written by `TaskHandler._handle_error` on the
task path. -/
theorem batch_isolation (batch : List (Company × DirectOracles)) (now : String) :
    (processCompaniesDirect batch now).1.total = batch.length ∧
    (processCompaniesDirect batch now).1.processed = batch.length ∧
    (processCompaniesDirect batch now).1.processed =
      (processCompaniesDirect batch now).1.success +
        (processCompaniesDirect batch now).1.errors ∧
    (∀ o : DirectOracles,
      (o.searchExtract = .error () ∨ o.searchAddress = .error () ∨ o.synth = .error ()) →
      processSingleCompanyDirect o now = (false, [])) ∧
    (∀ (c : Company) (msg : String),
      (handleError c msg true now).2.storeWrites.map (·.status) = [some "failed"]) := by
  unfold processCompaniesDirect
  obtain ⟨h1, h2, h3⟩ := processCompaniesDirect_fold now batch ({ total := batch.length }, [])
  dsimp only at h1 h2 h3
  refine ⟨h1, by omega, by omega, ?_, ?_⟩
  · intro o ho
    unfold processSingleCompanyDirect
    rcases ho with h | h | h
    · rw [h]
    · cases hse : o.searchExtract with
      | error e => rfl
      | ok v => rw [h]
    · cases hse : o.searchExtract with
      | error e => rfl
      | ok v =>
        cases hsa : o.searchAddress with
        | error e => rfl
        | ok w => rw [h]
  · intro c msg
    rfl

/-- C9 witness: the amended theorem applied to a two-company batch whose
first company raises and whose second succeeds. -/
theorem batch_isolation_witness :
    (processCompaniesDirect
      [(⟨some "https://a.example", some "A", some "IT", none⟩, { searchExtract := .error () }),
       (⟨some "https://b.example", some "B", some "IT", none⟩,
         { searchExtract := .ok {}, searchAddress := .ok [], synth := .ok {},
           upsert := true })] "t").1.total = 2 ∧
    (processCompaniesDirect
      [(⟨some "https://a.example", some "A", some "IT", none⟩, { searchExtract := .error () }),
       (⟨some "https://b.example", some "B", some "IT", none⟩,
         { searchExtract := .ok {}, searchAddress := .ok [], synth := .ok {},
           upsert := true })] "t").1.processed = 2 ∧
    (⟨some "https://a.example", some "A", some "IT", none⟩ : Company).website =
      some "https://a.example" := by
  have h := batch_isolation
    [(⟨some "https://a.example", some "A", some "IT", none⟩, { searchExtract := .error () }),
     (⟨some "https://b.example", some "B", some "IT", none⟩,
       { searchExtract := .ok {}, searchAddress := .ok [], synth := .ok {},
         upsert := true })] "t"
  exact ⟨h.1, h.2.1, rfl⟩

/-- C9 counterexample: a batch whose single company raises is counted as
processed with one error, but the store receives no record at all — in
particular no error-tagged record with `status = "failed"` — refuting the
claim that the dispatcher writes such a record on this path. -/
theorem batch_no_failed_record_counterexample :
    (processCompaniesDirect
      [(⟨some "https://a.example", some "Acme", some "IT", none⟩,
        { searchExtract := .error (), searchAddress := .error (),
          synth := .error (), upsert := true })] "t") =
      ({ total := 1, processed := 1, success := 0, errors := 1,
         errors_detail := ["Failed: Acme"] }, []) := by
  decide

/-! ## Overview-text expansion (claim C4) -/

theorem validate_fst_eq (fd : Rec) :
    (validate_company_data fd).1 = decide ((validateErrors fd).length = 0) := by
  unfold validate_company_data
  rfl

theorem validate_snd_eq (fd : Rec) : (validate_company_data fd).2 = validateErrors fd := by
  unfold validate_company_data
  rfl

theorem overview_error_mem (fd : Rec) (cur : String) (h : fd.overview_text = some cur)
    (hv : validate_overview_text cur = false) :
    "Invalid overview text" ∈ validateErrors fd := by
  unfold validateErrors
  rw [h]
  simp [hv]

theorem validate_invalid_of_mem (fd : Rec) (e : String)
    (h : e ∈ validateErrors fd) : (validate_company_data fd).1 = false := by
  rw [validate_fst_eq]
  have hne : validateErrors fd ≠ [] := List.ne_nil_of_mem h
  simp [List.length_eq_zero, hne]

theorem repairOverview_overview (fd : Rec) (c : Company) (errs : List String)
    (h : errs.contains "Invalid overview text" = true) :
    (repairOverview fd c errs).overview_text =
      some (expandOverviewText (getOr fd.overview_text "") c) := by
  unfold repairOverview
  rw [if_pos h]

theorem repairAddress_overview (fd : Rec) (c : Company) :
    (repairAddress fd c).overview_text = fd.overview_text := by
  unfold repairAddress
  dsimp only
  repeat' split
  all_goals rfl

theorem repairPrefecture_overview (fd : Rec) (c : Company) :
    (repairPrefecture fd c).overview_text = fd.overview_text := by
  unfold repairPrefecture
  split <;> rfl

theorem repairValidation_overview (fd : Rec) (c : Company) (errs : List String)
    (h : errs.contains "Invalid overview text" = true) :
    (repairValidation fd c errs).overview_text =
      some (expandOverviewText (getOr fd.overview_text "") c) := by
  unfold repairValidation
  dsimp only
  rw [repairPrefecture_overview, repairAddress_overview, repairOverview_overview fd c errs h]

theorem expandTemplate_length :
    expandTmplP1.length + expandTmplP2.length + expandTmplP3.length +
      expandTmplP4.length = 285 := by decide

theorem expandOverviewText_length (cur : String) (c : Company) (hlen : cur.length < 300) :
    (expandOverviewText cur c).length =
      cur.length + (getOr c.name "企業").length + (getOr c.industry "業界").length +
        (getOr c.website "").length + 285 := by
  unfold expandOverviewText
  dsimp only
  rw [if_neg (by omega)]
  simp only [String.length_append]
  have := expandTemplate_length
  omega

/-- C4 (amended): when the post-processed draft's (cleaned) `overview_text`
is shorter than 300 characters, Phase C replaces it by the templated
expansion built from the company name, industry and website; the result's
length is the cleaned draft length plus the lengths of those three fields
plus the 285 fixed template characters — which reaches 300 exactly when the
four lengths together are at least 15 (so a short draft for a company with
empty name, industry and website stays below 300). -/
theorem overview_expansion (c : Company) (pa : CandidateURLSet) (pb : Option ExtractedData)
    (draft : Rec) (now : String) (cur : String)
    (hcur : (postProcessData draft c pa pb now).bind (fun fd => fd.overview_text) = some cur)
    (hlen : cur.length < 300) :
    (formatAndSynthesize c pa pb (.ok draft) now).map (fun p => (p.1, p.2.overview_text)) =
      some ("success", some (expandOverviewText cur c)) ∧
    (expandOverviewText cur c).length =
      cur.length + (getOr c.name "企業").length + (getOr c.industry "業界").length +
        (getOr c.website "").length + 285 ∧
    (300 ≤ (expandOverviewText cur c).length ↔
      15 ≤ cur.length + (getOr c.name "企業").length + (getOr c.industry "業界").length +
        (getOr c.website "").length) := by
  obtain ⟨fd, hpost, hov⟩ := Option.bind_eq_some.mp hcur
  have hv : validate_overview_text cur = false := by
    unfold validate_overview_text
    by_cases hc : cur = ""
    · rw [if_pos hc]
    · rw [if_neg hc, if_pos (Or.inl hlen)]
  have hmem := overview_error_mem fd cur hov hv
  have hinvalid := validate_invalid_of_mem fd _ hmem
  have hcont : (validate_company_data fd).2.contains "Invalid overview text" = true := by
    rw [validate_snd_eq]
    simpa using hmem
  refine ⟨?_, expandOverviewText_length cur c hlen, ?_⟩
  · unfold formatAndSynthesize
    dsimp only
    rw [hpost]
    dsimp only
    rw [if_pos (by simp [hinvalid])]
    simp only [Option.map_some']
    rw [repairValidation_overview fd c _ hcont, hov]
    rfl
  · rw [expandOverviewText_length cur c hlen]
    omega

/-- C4 witness: the amended theorem applied to a short draft overview for a
company whose name, industry and website have 15 or more characters in
total. -/
theorem overview_expansion_witness :
    ((postProcessData { overview_text := some "A short overview." }
        ⟨some "https://acme.example", some "Acme Inc", some "IT", none⟩ {} none "t").bind
      (fun fd => fd.overview_text) = some "A short overview." ∧
      "A short overview.".length < 300) ∧
    ((formatAndSynthesize ⟨some "https://acme.example", some "Acme Inc", some "IT", none⟩
        {} none (.ok { overview_text := some "A short overview." }) "t").map
      (fun p => (p.1, p.2.overview_text)) =
      some ("success", some (expandOverviewText "A short overview."
        ⟨some "https://acme.example", some "Acme Inc", some "IT", none⟩)) ∧
     (expandOverviewText "A short overview."
        ⟨some "https://acme.example", some "Acme Inc", some "IT", none⟩).length =
       "A short overview.".length + "Acme Inc".length + "IT".length +
         "https://acme.example".length + 285 ∧
     (300 ≤ (expandOverviewText "A short overview."
        ⟨some "https://acme.example", some "Acme Inc", some "IT", none⟩).length ↔
      15 ≤ "A short overview.".length + "Acme Inc".length + "IT".length +
        "https://acme.example".length)) :=
  ⟨⟨by decide, by decide⟩,
   overview_expansion ⟨some "https://acme.example", some "Acme Inc", some "IT", none⟩
     {} none { overview_text := some "A short overview." } "t" "A short overview."
     (by decide) (by decide)⟩

/-- C4 counterexample: a company with empty name, industry and website and
an empty draft overview yields a Phase C record whose `overview_text` has
exactly the 285 fixed template characters — below the claimed 300-character
minimum. -/
theorem overview_expansion_counterexample :
    (formatAndSynthesize ⟨some "", some "", some "", none⟩ {} none
        (.ok { overview_text := some "" }) "t").map
      (fun p => p.2.overview_text.map String.length) = some (some 285) ∧
    (285 : Nat) < 300 := by
  exact ⟨by decide, by decide⟩

/-! ## Prefecture derivation (claim C6) -/

theorem extract_prefecture_ne_empty (s p : String)
    (h : extract_prefecture s = some p) : p ≠ "" := by
  unfold extract_prefecture at h
  split at h
  · cases h
  · split at h
    · rename_i q hq
      cases h
      have hmem := List.mem_of_find?_eq_some hq
      have hall : ∀ x ∈ PREFECTURES, x ≠ "" := by decide
      exact hall _ hmem
    · split at h
      · rename_i kv hkv
        cases h
        have hmem := List.mem_of_find?_eq_some hkv
        have hall : ∀ x ∈ ENGLISH_PREFECTURES, x.2 ≠ "" := by decide
        exact hall _ hmem
      · cases h

theorem addrStep1_found (r : Rec) (pb : Option ExtractedData) (p : String)
    (hlines : (getExtracted pb).address_lines ≠ [])
    (hne : pyStrip (String.intercalate " " (getExtracted pb).address_lines) ≠ "")
    (hp : extract_prefecture
      (pyStrip (String.intercalate " " (getExtracted pb).address_lines)) = some p) :
    (addrStep1 r pb).hq_address_raw =
      some (pyStrip (String.intercalate " " (getExtracted pb).address_lines)) ∧
    (addrStep1 r pb).prefecture_name = some p := by
  unfold addrStep1
  dsimp only
  rw [if_pos hlines, if_pos hne, hp]
  exact ⟨rfl, rfl⟩

theorem addrStep2_hq (r : Rec) (c : Company) :
    (addrStep2 r c).hq_address_raw = r.hq_address_raw := by
  unfold addrStep2
  split <;> rfl

theorem addrStep2_pref_truthy (r : Rec) (c : Company)
    (h : truthyS r.prefecture_name = true) :
    (addrStep2 r c).prefecture_name = r.prefecture_name := by
  unfold addrStep2
  rw [if_neg (by simp [h])]

theorem addrStep3_hq (r : Rec) (c : Company) :
    (addrStep3 r c).hq_address_raw = r.hq_address_raw := by
  unfold addrStep3
  dsimp only
  repeat' split
  all_goals rfl

theorem addrStep3_pref_truthy (r : Rec) (c : Company)
    (h : truthyS r.prefecture_name = true) :
    (addrStep3 r c).prefecture_name = r.prefecture_name := by
  unfold addrStep3
  rw [if_neg (by simp [h])]

theorem addrStep4_pref (r : Rec) :
    (addrStep4 r).prefecture_name = r.prefecture_name := by
  unfold addrStep4
  split <;> rfl

theorem addrStep4_hq_truthy (r : Rec) (h : truthyS r.hq_address_raw = true) :
    (addrStep4 r).hq_address_raw = r.hq_address_raw := by
  unfold addrStep4
  rw [if_neg (by simp [h])]

theorem addrStep5_pref (r : Rec) (c : Company) :
    (addrStep5 r c).prefecture_name = r.prefecture_name := by
  unfold addrStep5
  dsimp only
  repeat' split
  all_goals rfl

theorem addrStep5_hq_truthy (r : Rec) (c : Company)
    (h : truthyS r.hq_address_raw = true) :
    (addrStep5 r c).hq_address_raw = r.hq_address_raw := by
  unfold addrStep5
  rw [if_neg (by simp [h])]

theorem addrStep6_hq (r : Rec) (c : Company) :
    (addrStep6 r c).hq_address_raw = r.hq_address_raw := by
  unfold addrStep6
  dsimp only
  repeat' split
  all_goals rfl

theorem addrStep6_pref_truthy (r : Rec) (c : Company)
    (h : truthyS r.prefecture_name = true) :
    (addrStep6 r c).prefecture_name = r.prefecture_name := by
  unfold addrStep6
  rw [if_neg (by simp [h])]

theorem addrStep6_truthy (r : Rec) (c : Company) :
    truthyS (addrStep6 r c).prefecture_name = true := by
  unfold addrStep6
  dsimp only
  split
  · repeat' split
    all_goals simp [truthyS]
  · rename_i h
    simpa using h

theorem processAddressInfo_truthy (r : Rec) (c : Company) (pb : Option ExtractedData) :
    truthyS (processAddressInfo r c pb).prefecture_name = true :=
  addrStep6_truthy _ c

theorem processAddressInfo_found (r : Rec) (c : Company) (pb : Option ExtractedData)
    (p : String) (hlines : (getExtracted pb).address_lines ≠ [])
    (hne : pyStrip (String.intercalate " " (getExtracted pb).address_lines) ≠ "")
    (hp : extract_prefecture
      (pyStrip (String.intercalate " " (getExtracted pb).address_lines)) = some p) :
    (processAddressInfo r c pb).hq_address_raw =
      some (pyStrip (String.intercalate " " (getExtracted pb).address_lines)) ∧
    (processAddressInfo r c pb).prefecture_name = some p := by
  obtain ⟨h1h, h1p⟩ := addrStep1_found r pb p hlines hne hp
  have ht1 : truthyS (addrStep1 r pb).prefecture_name = true := by
    rw [h1p]
    simpa [truthyS] using extract_prefecture_ne_empty _ _ hp
  have hh1 : truthyS (addrStep1 r pb).hq_address_raw = true := by
    rw [h1h]
    simpa [truthyS] using hne
  have h2p := addrStep2_pref_truthy (addrStep1 r pb) c ht1
  have h2h := addrStep2_hq (addrStep1 r pb) c
  have ht2 : truthyS (addrStep2 (addrStep1 r pb) c).prefecture_name = true := by
    rw [h2p]; exact ht1
  have hh2 : truthyS (addrStep2 (addrStep1 r pb) c).hq_address_raw = true := by
    rw [h2h]; exact hh1
  have h3p := addrStep3_pref_truthy _ c ht2
  have h3h := addrStep3_hq (addrStep2 (addrStep1 r pb) c) c
  have ht3 : truthyS (addrStep3 (addrStep2 (addrStep1 r pb) c) c).prefecture_name = true := by
    rw [h3p]; exact ht2
  have hh3 : truthyS (addrStep3 (addrStep2 (addrStep1 r pb) c) c).hq_address_raw = true := by
    rw [h3h]; exact hh2
  have h4p := addrStep4_pref (addrStep3 (addrStep2 (addrStep1 r pb) c) c)
  have h4h := addrStep4_hq_truthy _ hh3
  have ht4 : truthyS (addrStep4 (addrStep3 (addrStep2 (addrStep1 r pb) c) c)).prefecture_name
      = true := by rw [h4p]; exact ht3
  have hh4 : truthyS (addrStep4 (addrStep3 (addrStep2 (addrStep1 r pb) c) c)).hq_address_raw
      = true := by rw [h4h]; exact hh3
  have h5p := addrStep5_pref (addrStep4 (addrStep3 (addrStep2 (addrStep1 r pb) c) c)) c
  have h5h := addrStep5_hq_truthy _ c hh4
  have ht5 : truthyS ((addrStep5 (addrStep4 (addrStep3 (addrStep2 (addrStep1 r pb) c) c))
      c).prefecture_name) = true := by rw [h5p]; exact ht4
  have h6p := addrStep6_pref_truthy _ c ht5
  have h6h := addrStep6_hq (addrStep5 (addrStep4 (addrStep3 (addrStep2 (addrStep1 r pb) c) c)) c) c
  unfold processAddressInfo
  constructor
  · rw [h6h, h5h, h4h, h3h, h2h, h1h]
  · rw [h6p, h5p, h4p, h3p, h2p, h1p]

theorem personalizationStep_pref (nd : Rec) :
    (personalizationStep nd).prefecture_name = nd.prefecture_name := by
  unfold personalizationStep
  split <;> rfl

theorem repairOverview_pref (fd : Rec) (c : Company) (errs : List String) :
    (repairOverview fd c errs).prefecture_name = fd.prefecture_name := by
  unfold repairOverview
  dsimp only
  split <;> rfl

theorem repairAddress_pref (fd : Rec) (c : Company) :
    (repairAddress fd c).prefecture_name = fd.prefecture_name := by
  unfold repairAddress
  dsimp only
  repeat' split
  all_goals rfl

theorem repairPrefecture_pref_truthy (fd : Rec) (c : Company)
    (h : truthyS fd.prefecture_name = true) :
    (repairPrefecture fd c).prefecture_name = fd.prefecture_name := by
  unfold repairPrefecture
  rw [if_neg (by simp [h])]

theorem repairValidation_pref_truthy (fd : Rec) (c : Company) (errs : List String)
    (h : truthyS fd.prefecture_name = true) :
    (repairValidation fd c errs).prefecture_name = fd.prefecture_name := by
  unfold repairValidation
  dsimp only
  have hro := repairOverview_pref fd c errs
  have hra := repairAddress_pref (repairOverview fd c errs) c
  have htr : truthyS (repairAddress (repairOverview fd c errs) c).prefecture_name = true := by
    rw [hra, hro]; exact h
  rw [repairPrefecture_pref_truthy _ c htr, hra, hro]

theorem formatAndSynthesize_pref_truthy (c : Company) (pa : CandidateURLSet)
    (pb : Option ExtractedData) (draft : Rec) (now : String) (st : String) (rec : Rec)
    (h : formatAndSynthesize c pa pb (.ok draft) now = some (st, rec)) :
    truthyS rec.prefecture_name = true := by
  unfold formatAndSynthesize at h
  dsimp only at h
  obtain ⟨ph, hpost⟩ := postProcessData_eq draft c pa pb now
  rw [hpost] at h
  dsimp only at h
  have hrec := (Prod.mk.injEq _ _ _ _).mp (Option.some.inj h)
  have hfd : truthyS (attachMetadata (cleanTextFields (personalizationStep
      { processAddressInfo (normalize_company_data draft) c pb with
          pain_hypotheses := ph })) pa pb now).prefecture_name = true := by
    show truthyS (personalizationStep
      { processAddressInfo (normalize_company_data draft) c pb with
          pain_hypotheses := ph }).prefecture_name = true
    rw [personalizationStep_pref]
    exact processAddressInfo_truthy (normalize_company_data draft) c pb
  rw [← hrec.2]
  split
  · rw [repairValidation_pref_truthy _ c _ hfd]
    exact hfd
  · exact hfd

/-- C6 (amended): on the normal Phase C path `prefecture_name` is never the
empty string: `_process_address_info` always ends with a truthy prefecture
(joined Phase B address lines when they contain a canonical prefecture
name, else company prefecture, company-name keywords, website keywords, or
the default `東京都`), and the validation repairs preserve it; the claimed
derivation scans the *Phase B address lines*, not a draft `hq_address_raw`.
On the fallback path taken when the synthesis call throws, however,
`prefecture_name` is the raw company prefecture, which may be the empty
string. -/
theorem prefecture_fallbacks (r : Rec) (c : Company) (pb : Option ExtractedData)
    (pa : CandidateURLSet) (draft : Rec) (now : String) (p : String) :
    truthyS (processAddressInfo r c pb).prefecture_name = true ∧
    ((getExtracted pb).address_lines ≠ [] →
      pyStrip (String.intercalate " " (getExtracted pb).address_lines) ≠ "" →
      extract_prefecture
        (pyStrip (String.intercalate " " (getExtracted pb).address_lines)) = some p →
      (processAddressInfo r c pb).hq_address_raw =
        some (pyStrip (String.intercalate " " (getExtracted pb).address_lines)) ∧
      (processAddressInfo r c pb).prefecture_name = some p) ∧
    (∀ st rec, formatAndSynthesize c pa pb (.ok draft) now = some (st, rec) →
      truthyS rec.prefecture_name = true) ∧
    (getFallbackResult c now).prefecture_name = some (getOr c.prefecture "") := by
  refine ⟨processAddressInfo_truthy r c pb, ?_, ?_, rfl⟩
  · intro hlines hne hp
    exact processAddressInfo_found r c pb p hlines hne hp
  · intro st rec h
    exact formatAndSynthesize_pref_truthy c pa pb draft now st rec h

/-- C6 witness: the amended theorem applied to Phase B address lines that
contain a canonical prefecture name. -/
theorem prefecture_fallbacks_witness :
    ((getExtracted (some { address_lines := ["東京都千代田区1-1"] })).address_lines ≠ [] ∧
     pyStrip (String.intercalate " "
       (getExtracted (some { address_lines := ["東京都千代田区1-1"] })).address_lines) ≠ "" ∧
     extract_prefecture (pyStrip (String.intercalate " "
       (getExtracted (some { address_lines := ["東京都千代田区1-1"] })).address_lines)) =
       some "東京都") ∧
    (truthyS (processAddressInfo {} ⟨some "https://acme.example", some "Acme", some "IT", none⟩
        (some { address_lines := ["東京都千代田区1-1"] })).prefecture_name = true ∧
     (processAddressInfo {} ⟨some "https://acme.example", some "Acme", some "IT", none⟩
        (some { address_lines := ["東京都千代田区1-1"] })).hq_address_raw =
       some (pyStrip (String.intercalate " "
         (getExtracted (some { address_lines := ["東京都千代田区1-1"] })).address_lines)) ∧
     (processAddressInfo {} ⟨some "https://acme.example", some "Acme", some "IT", none⟩
        (some { address_lines := ["東京都千代田区1-1"] })).prefecture_name = some "東京都" ∧
     (getFallbackResult ⟨some "https://acme.example", some "Acme", some "IT", none⟩
        "t").prefecture_name = some (getOr (none : Option String) "")) := by
  have h := prefecture_fallbacks {} ⟨some "https://acme.example", some "Acme", some "IT", none⟩
    (some { address_lines := ["東京都千代田区1-1"] }) {} {} "t" "東京都"
  have h2 := h.2.1 (by decide) (by decide) (by decide)
  exact ⟨⟨by decide, by decide, by decide⟩, h.1, h2.1, h2.2, h.2.2.2⟩

/-- C6 counterexample: when the synthesis call throws for a company without
an input prefecture, the fully-templated fallback record carries
`prefecture_name = ""` — the claim that `prefecture_name` is never the
empty string fails on the fallback path. -/
theorem prefecture_empty_on_fallback_counterexample :
    (formatAndSynthesize ⟨some "https://acme.example", some "Acme", some "IT", none⟩
        {} none (.error ()) "t").map (fun p => (p.1, p.2.prefecture_name)) =
      some ("error", some "") ∧
    truthyS (some "") = false := by
  exact ⟨by decide, by decide⟩

end Enrich
